import Mathlib

/-!
Verification of the call-dashboard backend's data pipeline
(`backend/server.js`): multi-file CSV merge (`loadAllData`), cache
semantics, the enrichment passes (carrier / geocode / timezone), the
ad-hoc query engine (`/api/chat/query`), and the BOE reference-data
cache (`fetchBOEData`).

Modelling conventions:
* A JavaScript scalar value is `JVal` (string, number, or null); numbers
  are exact rationals, an idealisation of IEEE doubles.
* A JavaScript object is an ordered association list `Row`
  (`List (String × JVal)`); property assignment updates an existing key
  in place and appends a fresh key at the end, matching object key
  insertion order.
* A JavaScript `Set` of strings is an ordered duplicate-free list built
  with `addCol` (insertion order, as in V8).
* Fallible steps (`fs.readFileSync` / `fetch` / a thrown `TypeError`)
  are explicit: environments carry parse results, `fetch` results are
  `Except` parameters, and a row transform that can throw returns
  `Option`.
-/

/-- A JavaScript scalar value as it occurs in this pipeline: a string, a
number (modelled as an exact rational), or `null`.  Absence of a key is
represented by `Option.none` at the lookup site, not by a `JVal`. -/
inductive JVal where
  | str (s : String)
  | num (q : ℚ)
  | null
deriving DecidableEq

/-- A JavaScript object with scalar values: an ordered association list,
mirroring object key insertion order. -/
def Row : Type := List (String × JVal)

instance : DecidableEq Row := by
  unfold Row
  infer_instance

instance : Membership (String × JVal) Row := by
  unfold Row
  infer_instance

instance : Append Row := by
  unfold Row
  infer_instance

/-- Property read `o[k]` on an association list: first binding wins
(association lists modelling JS objects never have duplicate keys). -/
def lookupStr {α : Type} (k : String) : List (String × α) → Option α
  | [] => none
  | p :: ps => if p.1 = k then some p.2 else lookupStr k ps

/-- Property write `o[k] = v`: update an existing key in place, append a
fresh key at the end (JS object key insertion order). -/
def setAssoc {α : Type} (l : List (String × α)) (k : String) (v : α) :
    List (String × α) :=
  match l with
  | [] => [(k, v)]
  | p :: ps => if p.1 = k then (k, v) :: ps else p :: setAssoc ps k v

/-- Read a row field, `row[k]` (`none` models JS `undefined`). -/
def getVal (r : Row) (k : String) : Option JVal := lookupStr k r

/-- Write a row field, `row[k] = v`. -/
def setKey (r : Row) (k : String) (v : JVal) : Row := setAssoc r k v

/-- `Object.keys(row)`, in insertion order. -/
def rowKeys (r : Row) : List String := (r : List (String × JVal)).map Prod.fst

/-- Key-presence test (`row[k] !== undefined`). -/
def hasKey (r : Row) (k : String) : Bool := (getVal r k).isSome

/-- JavaScript truthiness of a possibly-absent scalar value: `undefined`,
`null`, the empty string and the number 0 are falsy. -/
def truthy : Option JVal → Bool
  | none => false
  | some .null => false
  | some (.str s) => decide (s ≠ "")
  | some (.num q) => decide (q ≠ 0)

/-- Truthiness of a possibly-absent string (used for lookups in tables
whose values are strings). -/
def truthyStr : Option String → Bool
  | none => false
  | some s => decide (s ≠ "")

/-- Character-wise model of `String.prototype.toLowerCase` (identical to
`String.toLower` on the data involved, but kernel-reducible). -/
def strToLower (s : String) : String := String.mk (s.data.map Char.toLower)

/-- Character-wise model of `String.prototype.toUpperCase`. -/
def strToUpper (s : String) : String := String.mk (s.data.map Char.toUpper)

/-- `Set.add` on an insertion-ordered string set. -/
def addCol (acc : List String) (c : String) : List String :=
  if c ∈ acc then acc else acc ++ [c]

/-- `cols.forEach(c => set.add(c))`. -/
def addCols (acc : List String) (cs : List String) : List String :=
  cs.foldl addCol acc

/-- Digit-string value, most significant digit first. -/
def digitsVal (l : List Char) : ℕ :=
  l.foldl (fun a c => 10 * a + (c.toNat - '0'.toNat)) 0

/-- JavaScript number-to-string conversion for the exact rationals of
this development: integers print as usual; a value with a finite decimal
expansion (every numeric literal in the program) prints in decimal; the
remaining rationals (which JS, computing in binary floating point, could
not represent exactly anyway) fall back to a fraction form.  No claim
below depends on the fallback case. -/
def jsNumToString (q : ℚ) : String :=
  if q.den = 1 then toString q.num
  else
    match (List.range 40).find? (fun k => decide ((q.den : ℤ) ∣ 10 ^ k)) with
    | some k =>
      let scaled : ℤ := q.num * ((10 ^ k : ℤ) / (q.den : ℤ))
      let sign := if q.num < 0 then "-" else ""
      let digits := toString scaled.natAbs
      let padded := String.mk (List.replicate (k + 1 - digits.length) '0') ++ digits
      sign ++ String.mk (padded.data.take (padded.data.length - k)) ++ "." ++
        String.mk (padded.data.drop (padded.data.length - k))
    | none => toString q.num ++ "/" ++ toString q.den

/-- JavaScript `String(v)` on a scalar value. -/
def jsString : JVal → String
  | .str s => s
  | .num q => jsNumToString q
  | .null => "null"

/-- JavaScript `x || ''` on a possibly-absent value: a falsy value is
replaced by the empty string. -/
def jsOr (o : Option JVal) : JVal := if truthy o then o.getD .null else .str ""

/-- Whitespace skipped by `parseFloat`. -/
def isWs (c : Char) : Bool := c = ' ' || c = '\t' || c = '\n' || c = '\r'

/-- Leading-decimal parse of a character list: optional sign, integer
digits, optional fraction, optional decimal exponent; `none` when no
digit could be consumed (JS `NaN`). -/
def parseFloatCore (l : List Char) : Option ℚ :=
  let sgn : ℚ × List Char :=
    match l with
    | '-' :: t => (-1, t)
    | '+' :: t => (1, t)
    | _ => (1, l)
  let ip := sgn.2.takeWhile Char.isDigit
  let rest := sgn.2.dropWhile Char.isDigit
  let fp : List Char × List Char :=
    match rest with
    | '.' :: t => (t.takeWhile Char.isDigit, t.dropWhile Char.isDigit)
    | _ => ([], rest)
  if ip.isEmpty && fp.1.isEmpty then none
  else
    let mant : ℚ := sgn.1 * ((digitsVal ip : ℚ) + (digitsVal fp.1 : ℚ) / ((10 ^ fp.1.length : ℕ) : ℚ))
    match fp.2 with
    | e :: t =>
      if e = 'e' || e = 'E' then
        let esgn : ℤ × List Char :=
          match t with
          | '-' :: u => (-1, u)
          | '+' :: u => (1, u)
          | _ => (1, t)
        let ed := esgn.2.takeWhile Char.isDigit
        if ed.isEmpty then some mant
        else some (mant * (10 : ℚ) ^ (esgn.1 * (digitsVal ed : ℤ)))
      else some mant
    | [] => some mant

/-- JavaScript `parseFloat` on a string (`none` is `NaN`).  `Infinity`
literals, which never occur in call-record data, are not modelled. -/
def parseFloatQ (s : String) : Option ℚ :=
  parseFloatCore (s.data.dropWhile isWs)

/-- JavaScript `parseFloat` applied to a scalar value (the value is
converted to a string first; for a number that round-trips to the same
number). -/
def jsParseFloatVal : JVal → Option ℚ
  | .str s => parseFloatQ s
  | .num q => some q
  | .null => none

/-- Static state/province → IANA timezone table (`stateTimezones`). -/
def stateTimezones : List (String × String) := [
  ("AL", "America/Chicago"), ("AK", "America/Anchorage"), ("AZ", "America/Phoenix"),
  ("AR", "America/Chicago"), ("CA", "America/Los_Angeles"), ("CO", "America/Denver"),
  ("CT", "America/New_York"), ("DE", "America/New_York"), ("FL", "America/New_York"),
  ("GA", "America/New_York"), ("HI", "Pacific/Honolulu"), ("ID", "America/Boise"),
  ("IL", "America/Chicago"), ("IN", "America/Indiana/Indianapolis"), ("IA", "America/Chicago"),
  ("KS", "America/Chicago"), ("KY", "America/New_York"), ("LA", "America/Chicago"),
  ("ME", "America/New_York"), ("MD", "America/New_York"), ("MA", "America/New_York"),
  ("MI", "America/Detroit"), ("MN", "America/Chicago"), ("MS", "America/Chicago"),
  ("MO", "America/Chicago"), ("MT", "America/Denver"), ("NE", "America/Chicago"),
  ("NV", "America/Los_Angeles"), ("NH", "America/New_York"), ("NJ", "America/New_York"),
  ("NM", "America/Denver"), ("NY", "America/New_York"), ("NC", "America/New_York"),
  ("ND", "America/Chicago"), ("OH", "America/New_York"), ("OK", "America/Chicago"),
  ("OR", "America/Los_Angeles"), ("PA", "America/New_York"), ("RI", "America/New_York"),
  ("SC", "America/New_York"), ("SD", "America/Chicago"), ("TN", "America/Chicago"),
  ("TX", "America/Chicago"), ("UT", "America/Denver"), ("VT", "America/New_York"),
  ("VA", "America/New_York"), ("WA", "America/Los_Angeles"), ("WV", "America/New_York"),
  ("WI", "America/Chicago"), ("WY", "America/Denver"), ("DC", "America/New_York"),
  ("ON", "America/Toronto"), ("QC", "America/Montreal"), ("BC", "America/Vancouver"),
  ("AB", "America/Edmonton"), ("MB", "America/Winnipeg"), ("SK", "America/Regina"),
  ("NS", "America/Halifax"), ("NB", "America/Moncton"), ("NL", "America/St_Johns")]

/-- Static state/province → map-centre coordinate table
(`stateCoordinates`), entries `(state, lat, lng)`. -/
def stateCoordinates : List (String × ℚ × ℚ) := [
  ("AL", 32.806671, -86.791130), ("AK", 61.370716, -152.404419),
  ("AZ", 33.729759, -111.431221), ("AR", 34.969704, -92.373123),
  ("CA", 36.116203, -119.681564), ("CO", 39.059811, -105.311104),
  ("CT", 41.597782, -72.755371), ("DE", 39.318523, -75.507141),
  ("FL", 27.766279, -81.686783), ("GA", 33.040619, -83.643074),
  ("HI", 21.094318, -157.498337), ("ID", 44.240459, -114.478828),
  ("IL", 40.349457, -88.986137), ("IN", 39.849426, -86.258278),
  ("IA", 42.011539, -93.210526), ("KS", 38.526600, -96.726486),
  ("KY", 37.668140, -84.670067), ("LA", 31.169546, -91.867805),
  ("ME", 44.693947, -69.381927), ("MD", 39.063946, -76.802101),
  ("MA", 42.230171, -71.530106), ("MI", 43.326618, -84.536095),
  ("MN", 45.694454, -93.900192), ("MS", 32.741646, -89.678696),
  ("MO", 38.456085, -92.288368), ("MT", 46.921925, -110.454353),
  ("NE", 41.125370, -98.268082), ("NV", 38.313515, -117.055374),
  ("NH", 43.452492, -71.563896), ("NJ", 40.298904, -74.521011),
  ("NM", 34.840515, -106.248482), ("NY", 42.165726, -74.948051),
  ("NC", 35.630066, -79.806419), ("ND", 47.528912, -99.784012),
  ("OH", 40.388783, -82.764915), ("OK", 35.565342, -96.928917),
  ("OR", 44.572021, -122.070938), ("PA", 40.590752, -77.209755),
  ("RI", 41.680893, -71.511780), ("SC", 33.856892, -80.945007),
  ("SD", 44.299782, -99.438828), ("TN", 35.747845, -86.692345),
  ("TX", 31.054487, -97.563461), ("UT", 40.150032, -111.862434),
  ("VT", 44.045876, -72.710686), ("VA", 37.769337, -78.169968),
  ("WA", 47.400902, -121.490494), ("WV", 38.491226, -80.954453),
  ("WI", 44.268543, -89.616508), ("WY", 42.755966, -107.302490),
  ("DC", 38.897438, -77.026817),
  ("ON", 51.253775, -85.323214), ("QC", 52.939916, -73.549136),
  ("BC", 53.726669, -127.647621), ("AB", 53.933271, -116.576503)]

/-- Static area-code → carrier table (`areaCodeCarriers`). -/
def areaCodeCarriers : List (String × String) := [
  ("201", "Verizon/AT&T"), ("202", "Verizon/AT&T"), ("203", "AT&T"),
  ("212", "Verizon"), ("213", "AT&T"), ("214", "AT&T"),
  ("310", "AT&T/T-Mobile"), ("312", "AT&T"), ("313", "AT&T"),
  ("404", "AT&T"), ("408", "AT&T"), ("415", "AT&T"),
  ("469", "AT&T"), ("512", "AT&T"), ("602", "T-Mobile"),
  ("619", "AT&T"), ("626", "AT&T"), ("650", "AT&T"),
  ("702", "T-Mobile"), ("713", "AT&T"), ("714", "AT&T"),
  ("718", "Verizon"), ("720", "T-Mobile"), ("760", "Verizon"),
  ("818", "AT&T"), ("858", "AT&T"), ("909", "Verizon"),
  ("916", "AT&T"), ("917", "Verizon"), ("949", "AT&T"),
  ("951", "Verizon"), ("972", "AT&T")]

/-- One `active = 1` row of the `data_files` registry together with the
outcome of reading its stored file: `readable = false` when
`fs.existsSync(file.file_path)` is false or reading/parsing throws (both
cases make `loadAllData` skip the file), otherwise `rows`/`cols` are the
parse result of `loadDataFromFile`. -/
structure SourceFile where
  id : ℤ
  name : String
  readable : Bool
  rows : List Row
  cols : List String
deriving DecidableEq

/-- The slice of a registry row that the claims inspect from the
`files` component of a load result. -/
structure FileRec where
  id : ℤ
  name : String
deriving DecidableEq

/-- The ambient inputs of `loadAllData`: the active registry rows in
`created_at ASC` order, and the parse result of the configured default
`DATA_FILE` (`none` when it does not exist or cannot be parsed). -/
structure Env where
  activeFiles : List SourceFile
  defaultData : Option (List Row × List String)

/-- The module-level cache slot (`cachedData`, `cachedColumns`,
`dataFilesCache`); `none` is JS `null`. -/
structure St where
  cachedData : Option (List Row)
  cachedColumns : Option (List String)
  filesCache : Option (List FileRec)
deriving DecidableEq

/-- The cache state at process start (all three variables `null`). -/
def St.init : St := ⟨none, none, none⟩

/-- The `{ data, columns, files }` object returned by `loadAllData`. -/
structure LoadResult where
  data : List Row
  columns : List String
  files : List FileRec
deriving DecidableEq

/-- Provenance tagging of one parsed row:
`row._sourceFile = file.original_name; row._sourceFileId = file.id`. -/
def tagRow (f : SourceFile) (r : Row) : Row :=
  setKey (setKey r "_sourceFile" (.str f.name)) "_sourceFileId" (.num (f.id : ℚ))

/-- The files whose stored bytes are actually read (existing and
parseable; the others are skipped by the try/existsSync guard). -/
def readableFiles (env : Env) : List SourceFile :=
  env.activeFiles.filter (fun f => f.readable)

/-- The accumulated `allColumns` set: the union, in first-seen order, of
the column lists of all files that could be read. -/
def mergeColumns (files : List SourceFile) : List String :=
  files.foldl (fun acc f => addCols acc f.cols) []

/-- Normalisation of one tagged row to the full column union: every
union column is present (`null` when the originating file lacked it),
then the two provenance fields are copied over.  In the code the tagged
row always carries both provenance fields, so the `.getD .null`
fallbacks never fire. -/
def normalizeRow (cols : List String) (r : Row) : Row :=
  let base := cols.foldl (fun acc c => setKey acc c ((getVal r c).getD .null)) []
  setKey (setKey base "_sourceFile" ((getVal r "_sourceFile").getD .null))
    "_sourceFileId" ((getVal r "_sourceFileId").getD .null)

/-- `loadAllData(forceRefresh)`.  Returns the response object, the new
cache state, and the number of files whose bytes were read (0 on the
cache-hit and empty-registry/no-default paths).  On the cache-hit path
the three cache variables were always populated together by a previous
load, so the `.getD` defaults never fire there. -/
def loadAllData (env : Env) (st : St) (forceRefresh : Bool) :
    LoadResult × St × ℕ :=
  if st.cachedData.isSome && !forceRefresh then
    (⟨st.cachedData.getD [], st.cachedColumns.getD [], st.filesCache.getD []⟩, st, 0)
  else if env.activeFiles.isEmpty then
    match env.defaultData with
    | some dflt =>
      (⟨dflt.1, dflt.2, [⟨0, "Default Data"⟩]⟩,
       ⟨some dflt.1, some dflt.2, some [⟨0, "Default Data"⟩]⟩, 1)
    | none => (⟨[], [], []⟩, ⟨some [], some [], some []⟩, 0)
  else
    let files := readableFiles env
    let cols := mergeColumns files
    let allData := files.flatMap (fun f => f.rows.map (tagRow f))
    let data := allData.map (normalizeRow cols)
    let frecs := env.activeFiles.map (fun f => (⟨f.id, f.name⟩ : FileRec))
    (⟨data, cols, frecs⟩, ⟨some data, some cols, some frecs⟩, files.length)

/-- The union of the keys of a row set, in first-seen order
(`rows.forEach(row => Object.keys(row).forEach(k => allColumns.add(k)))`). -/
def columnUnion (rows : List Row) : List String :=
  rows.foldl (fun acc r => addCols acc (rowKeys r)) []

/-- `phone.replace(/\D/g, '')`. -/
def digitsOnly (s : String) : String := String.mk (s.data.filter Char.isDigit)

/-- `const phone = row.CallerID || ''` followed by the string methods on
`phone`: a falsy value yields the empty string, a non-empty string is
itself, and a truthy number (on which `.replace` would throw a
`TypeError`) aborts the request. -/
def phoneOf : Option JVal → Option String
  | none => some ""
  | some .null => some ""
  | some (.str s) => some (if s = "" then "" else s)
  | some (.num q) => if q = 0 then some "" else none

/-- The carrier pass row guard
`!row.CallerCarrier || row.CallerCarrier === 'Not Found'`. -/
def carrierGuard (r : Row) : Bool :=
  !truthy (getVal r "CallerCarrier") ||
    decide (getVal r "CallerCarrier" = some (.str "Not Found"))

/-- The guarded body of the carrier pass: look up the area code (first
three digit characters of the phone) in the carrier table; on a truthy
hit store it, otherwise store the `"Unknown Carrier"` sentinel when the
code has exactly 3 digits, otherwise leave the row alone.  (The
empty-carrier sub-branch mirrors the JS truthiness test on the table
value; the table has no empty entries, so it is unreachable.) -/
def carrierFill (r : Row) (phone : String) : Row :=
  let areaCode : String := String.mk ((digitsOnly phone).data.take 3)
  match lookupStr areaCode areaCodeCarriers with
  | some c =>
    if c ≠ "" then setKey r "CallerCarrier" (.str c)
    else if areaCode.length = 3 then setKey r "CallerCarrier" (.str "Unknown Carrier")
    else r
  | none =>
    if areaCode.length = 3 then setKey r "CallerCarrier" (.str "Unknown Carrier")
    else r

/-- One row of the `/api/enrich/carrier` map: fills `CallerCarrier` from
the area-code table when the row's carrier is missing or `"Not Found"`,
and otherwise returns the row unchanged (`none` models the `TypeError`
thrown on a truthy non-string `CallerID`). -/
def enrichCarrierRow (r : Row) : Option Row :=
  if carrierGuard r then (phoneOf (getVal r "CallerID")).map (carrierFill r)
  else some r

/-- `data.map(f)` where `f` may throw: the first failing row aborts the
whole map (the handler answers 500). -/
def mapOpt (f : Row → Option Row) : List Row → Option (List Row)
  | [] => some []
  | r :: rs =>
    match f r, mapOpt f rs with
    | some r', some rs' => some (r' :: rs')
    | _, _ => none

/-- The `/api/enrich/carrier` handler body: maps the rows, stores the
result in `cachedData` (only — `cachedColumns` is not touched), and
reports `Object.keys(enrichedData[0] || {})` as the column list. -/
def carrierHandler (st : St) (data : List Row) :
    Option (St × List Row × List String) :=
  (mapOpt enrichCarrierRow data).map (fun e =>
    ({st with cachedData := some e}, e, rowKeys (e.headD [])))

/-- One row of the `/api/enrich/geocode` map: always writes `Latitude`
and `Longitude` (null), then overwrites them with the state's
coordinates when `CallerState` is truthy and in the table. -/
def enrichGeocodeRow (r : Row) : Row :=
  let r1 := setKey (setKey r "Latitude" .null) "Longitude" .null
  if truthy (getVal r "CallerState") then
    match lookupStr (jsString ((getVal r "CallerState").getD .null)) stateCoordinates with
    | some co => setKey (setKey r1 "Latitude" (.num co.1)) "Longitude" (.num co.2)
    | none => r1
  else r1

/-- The `/api/enrich/geocode` handler body: maps the rows, recomputes
the column union across the mutated rows, and replaces both cache
variables. -/
def geocodeHandler (st : St) (data : List Row) : St × List Row × List String :=
  let e := data.map enrichGeocodeRow
  let cols := columnUnion e
  ({st with cachedData := some e, cachedColumns := some cols}, e, cols)

/-- One row of the `/api/enrich/timezone` map: always writes
`CallerTimezone` (null), then overwrites it when `CallerState` is truthy
and the table value is truthy. -/
def enrichTimezoneRow (r : Row) : Row :=
  let r1 := setKey r "CallerTimezone" .null
  if truthy (getVal r "CallerState") &&
      truthyStr (lookupStr (jsString ((getVal r "CallerState").getD .null)) stateTimezones) then
    setKey r1 "CallerTimezone"
      (.str ((lookupStr (jsString ((getVal r "CallerState").getD .null)) stateTimezones).getD ""))
  else r1

/-- The `/api/enrich/timezone` handler body: maps the rows, recomputes
the column union across the mutated rows, and replaces both cache
variables. -/
def timezoneHandler (st : St) (data : List Row) : St × List Row × List String :=
  let e := data.map enrichTimezoneRow
  let cols := columnUnion e
  ({st with cachedData := some e, cachedColumns := some cols}, e, cols)

/-- JavaScript `hay.includes(needle)` (substring test). -/
def strIncludes (hay needle : String) : Bool :=
  (List.range (hay.data.length + 1)).any
    (fun i => decide ((hay.data.drop i).take needle.data.length = needle.data))

/-- The `sort` member of a query specification.  An absent `column` or
`direction` is modelled by the empty string (both are falsy /
fail the `=== 'desc'` test, like JS `undefined`). -/
structure SortSpec where
  column : String
  direction : String
deriving DecidableEq

/-- The `aggregation` member of a query specification.  An absent `type`
is modelled by the empty string (it selects the switch default, like JS
`undefined`); `column` and `groupBy` keep their possible absence. -/
structure AggSpec where
  type : String
  column : Option String
  groupBy : Option String
deriving DecidableEq

/-- A parsed query specification as produced by the external translator
(`{filters, sort, aggregation}`); absent or `null` members are `none`.
`undefined` filter values cannot arise from `JSON.parse`, so filter
values are plain scalars. -/
structure QuerySpec where
  filters : Option (List (String × JVal))
  sort : Option SortSpec
  aggregation : Option AggSpec
deriving DecidableEq

/-- One filter test on one row:
`String(row[col] || '').toLowerCase()` contains or equals the lowercased
target value. -/
def rowMatchesFilter (col : String) (valLower : String) (r : Row) : Bool :=
  let rowVal := strToLower (jsString (jsOr (getVal r col)))
  strIncludes rowVal valLower || decide (rowVal = valLower)

/-- The filter loop: one `Array.filter` per entry of
`Object.entries(querySpec.filters)`, skipping entries with a falsy
column name. -/
def applyFilters (fs : List (String × JVal)) (rows : List Row) : List Row :=
  fs.foldl (fun res cv =>
    if cv.1 = "" then res
    else res.filter (rowMatchesFilter cv.1 (strToLower (jsString cv.2)))) rows

/-- Codepoint-wise string comparison as a number; model of
`String.prototype.localeCompare` (whose exact order is
locale-dependent — no claim depends on the order chosen). -/
def strCompare (a b : String) : ℚ :=
  match compare a b with
  | .lt => -1
  | .eq => 0
  | .gt => 1

/-- The row sort comparator: numeric when both values parse as numbers,
otherwise string comparison, with `desc` swapping the operands. -/
def rowCompare (column direction : String) (a b : Row) : ℚ :=
  let aVal := jsOr (getVal a column)
  let bVal := jsOr (getVal b column)
  match jsParseFloatVal aVal, jsParseFloatVal bVal with
  | some na, some nb => if direction = "desc" then nb - na else na - nb
  | _, _ =>
    if direction = "desc" then strCompare (jsString bVal) (jsString aVal)
    else strCompare (jsString aVal) (jsString bVal)

/-- Stable insertion of `a` in front of the first element it need not
follow, under the order `le a b ↔ comparator(a, b) ≤ 0`. -/
def insertLe {α : Type} (le : α → α → Bool) (a : α) : List α → List α
  | [] => [a]
  | b :: bs => if le a b then a :: b :: bs else b :: insertLe le a bs

/-- Stable comparator sort (model of `Array.prototype.sort`, which since
ES2019 is stable; any sort consistent with the comparator satisfies the
claims proved below). -/
def sortLe {α : Type} (le : α → α → Bool) (l : List α) : List α :=
  l.foldr (insertLe le) []

/-- The group key of a row: `row[groupBy] || 'Unknown'`, coerced to a
string when used as an object property key. -/
def groupKeyOf (groupBy : String) (r : Row) : String :=
  if truthy (getVal r groupBy) then jsString ((getVal r groupBy).getD .null)
  else "Unknown"

/-- `groups[k].push(row)`, creating the group (at the end, in key
insertion order) when absent. -/
def insertGroup (gs : List (String × List Row)) (k : String) (r : Row) :
    List (String × List Row) :=
  match gs with
  | [] => [(k, [r])]
  | g :: rest => if g.1 = k then (k, g.2 ++ [r]) :: rest else g :: insertGroup rest k r

/-- The grouping loop of the aggregation branch. -/
def buildGroups (groupBy : String) (rows : List Row) : List (String × List Row) :=
  rows.foldl (fun gs r => insertGroup gs (groupKeyOf groupBy r) r) []

/-- `r[column]` where `column` may be absent (`r[undefined]` is
`undefined`). -/
def colGet (column : Option String) (r : Row) : Option JVal :=
  match column with
  | some c => getVal r c
  | none => none

/-- `parseFloat(r[column]) || 0`: a value that does not parse as a
number contributes 0. -/
def parseOr0 (o : Option JVal) : ℚ :=
  match o with
  | some v => (jsParseFloatVal v).getD 0
  | none => 0

/-- Largest element of a group's numeric values (`Math.max(...)`; the
empty case, `-Infinity` in JS, cannot arise because every group holds at
least one row). -/
def listMax : List ℚ → ℚ
  | [] => 0
  | a :: as => as.foldl max a

/-- Smallest element of a group's numeric values (`Math.min(...)`; empty
case unreachable as for `listMax`). -/
def listMin : List ℚ → ℚ
  | [] => 0
  | a :: as => as.foldl min a

/-- The per-group statistic of the aggregation switch.  The `avg` of an
empty group (JS `NaN`) cannot arise: groups are nonempty. -/
def aggValue (type : String) (column : Option String) (rows : List Row) : ℚ :=
  let nums := rows.map (fun r => parseOr0 (colGet column r))
  if type = "count" then (rows.length : ℚ)
  else if type = "sum" then nums.foldl (· + ·) 0
  else if type = "avg" then nums.foldl (· + ·) 0 / (rows.length : ℚ)
  else if type = "max" then listMax nums
  else if type = "min" then listMin nums
  else (rows.length : ℚ)

/-- `Math.round`: round half toward positive infinity. -/
def jsRound (q : ℚ) : ℤ := ⌊q + 1 / 2⌋

/-- `Math.round(value * 100) / 100`. -/
def round2 (q : ℚ) : ℚ := (jsRound (q * 100) : ℚ) / 100

/-- The aggregation branch: group the (already filtered and sorted)
rows, compute and round the per-group statistic, and sort the group
entries by descending statistic (`(a, b) => b[type] - a[type]`).  Each
output entry `{ [groupBy]: key, [type]: value }` is modelled as the pair
`(key, value)`.  `none` when `aggregation` is absent or `groupBy` is
falsy (the handler then reports `aggregation: null`). -/
def applyAggregation (ag : AggSpec) (rows : List Row) :
    Option (List (String × ℚ)) :=
  match ag.groupBy with
  | some g =>
    if g = "" then none
    else
      some (sortLe (fun a b => decide (b.2 - a.2 ≤ 0))
        ((buildGroups g rows).map (fun kg => (kg.1, round2 (aggValue ag.type ag.column kg.2)))))
  | none => none

/-- The `{ resultCount, results, aggregation }` part of the
`/api/chat/query` response. -/
structure QueryResult where
  resultCount : ℕ
  results : List Row
  aggregation : Option (List (String × ℚ))
deriving DecidableEq

/-- The filter stage of the query handler (`if (querySpec.filters)`). -/
def filterStep (spec : QuerySpec) (data : List Row) : List Row :=
  match spec.filters with
  | some fs => applyFilters fs data
  | none => data

/-- The sort stage of the query handler (`if (querySpec.sort?.column)`). -/
def sortStep (spec : QuerySpec) (rows : List Row) : List Row :=
  match spec.sort with
  | some s =>
    if s.column = "" then rows
    else sortLe (fun a b => decide (rowCompare s.column s.direction a b ≤ 0)) rows
  | none => rows

/-- Application of a parsed query specification to the dataset
(`/api/chat/query`, after the AI call): filter, sort, aggregate, then
answer with the true match count and the first 100 rows. -/
def applyQuery (spec : QuerySpec) (data : List Row) : QueryResult :=
  let r2 := sortStep spec (filterStep spec data)
  let agg := match spec.aggregation with
    | some ag => applyAggregation ag r2
    | none => none
  ⟨r2.length, r2.take 100, agg⟩

/-- Specification-side single-pass filter predicate: a row is a match
when it satisfies every (non-skipped) filter entry. -/
def matchesAllFilters (fs : List (String × JVal)) (r : Row) : Bool :=
  fs.all (fun cv => if cv.1 = "" then true
    else rowMatchesFilter cv.1 (strToLower (jsString cv.2)) r)

/-- The rows of `data` that match all filters of the specification (the
pre-cap match set whose size `resultCount` reports). -/
def matchedRows (spec : QuerySpec) (data : List Row) : List Row :=
  match spec.filters with
  | some fs => data.filter (matchesAllFilters fs)
  | none => data

/-- One record of the BOE city-valuation feed
(`Assessed_Property_Values_by_City`), restricted to the fields the code
reads. -/
structure CityRecord where
  City : String
  County : String
  LocallyAssessedValue : ℚ
deriving DecidableEq

/-- One record of the BOE county tax-allocation feed
(`Property_Tax_Allocations`), restricted to the fields the code reads. -/
structure TaxRecord where
  County : String
  AverageTaxRate : ℚ
  NetTaxableAssessedValue : ℚ
  TotalPropertyTaxAllocationsandLevies : ℚ
  AssessmentYearFrom : ℤ
  AssessmentYearTo : ℤ
deriving DecidableEq

/-- The per-county value stored in `countyTaxRates`. -/
structure TaxInfo where
  avgTaxRate : ℚ
  netAssessedValue : ℚ
  totalLevies : ℚ
  year : String
deriving DecidableEq

/-- The `TaxInfo` built from one tax record (including the
template-string year range). -/
def mkTaxInfo (rec : TaxRecord) : TaxInfo :=
  ⟨rec.AverageTaxRate, rec.NetTaxableAssessedValue,
   rec.TotalPropertyTaxAllocationsandLevies,
   toString rec.AssessmentYearFrom ++ "-" ++ toString rec.AssessmentYearTo⟩

/-- The module-level `boeDataCache` object.  `lastFetched` is a
millisecond timestamp; `cityValues` only exists after a successful
fetch. -/
structure BOECache where
  cityToCounty : Option (List (String × String))
  cityValues : Option (List (String × ℚ))
  countyTaxRates : Option (List (String × TaxInfo))
  lastFetched : Option ℤ
deriving DecidableEq

/-- The initial `boeDataCache` (all members `null`). -/
def BOECache.init : BOECache := ⟨none, none, none, none⟩

/-- The cache-freshness guard
`boeDataCache.lastFetched && (Date.now() - boeDataCache.lastFetched) < 24 * 60 * 60 * 1000`
(the `t ≠ 0` conjunct is the JS truthiness of the timestamp; a real
timestamp is never 0). -/
def boeFresh (now : ℤ) (c : BOECache) : Bool :=
  match c.lastFetched with
  | some t => decide (t ≠ 0) && decide (now - t < 24 * 60 * 60 * 1000)
  | none => false

/-- The city-map loop: for each record, if `cityToCounty[cityKey]` is
falsy (absent — or holding an empty county string), store the record's
county and locally-assessed value under the uppercased city name. -/
def buildCityMaps (records : List CityRecord) :
    List (String × String) × List (String × ℚ) :=
  records.foldl (fun m rec =>
    let cityKey := strToUpper rec.City
    if truthyStr (lookupStr cityKey m.1) then m
    else (setAssoc m.1 cityKey rec.County, setAssoc m.2 cityKey rec.LocallyAssessedValue))
    ([], [])

/-- The county-map loop: for each record, if `countyTaxRates[countyKey]`
is absent (the stored value is an object, hence always truthy), store
the record's tax info under the uppercased county name. -/
def buildTaxMap (records : List TaxRecord) : List (String × TaxInfo) :=
  records.foldl (fun m rec =>
    let countyKey := strToUpper rec.County
    if (lookupStr countyKey m).isSome then m
    else setAssoc m countyKey (mkTaxInfo rec)) []

/-- `fetchBOEData()`.  The two paginated fetches (including their
`.json()` decoding) enter as `Except` parameters; the function returns
the served cache value together with the flag "a network fetch was
performed", or propagates the fetch error (the module cache is only
reassigned on success, so on an error the caller's cache is
unchanged). -/
def fetchBOEData (now : ℤ) (cache : BOECache)
    (cityFetch : Except String (List CityRecord))
    (taxFetch : Except String (List TaxRecord)) :
    Except String (BOECache × Bool) :=
  if boeFresh now cache then .ok (cache, false)
  else
    match cityFetch with
    | .error e => .error e
    | .ok cityData =>
      let cityMaps := buildCityMaps cityData
      match taxFetch with
      | .error e => .error e
      | .ok taxData =>
        .ok (⟨some cityMaps.1, some cityMaps.2, some (buildTaxMap taxData), some now⟩, true)

/-- Static CA county → assessor-search URL table (`caCountyAssessors`). -/
def caCountyAssessors : List (String × String) := [
  ("Alameda", "https://www.acgov.org/assessor/search/"),
  ("Alpine", "https://www.alpinecountyca.gov/192/Assessor"),
  ("Amador", "https://www.amadorgov.org/government/assessor"),
  ("Butte", "https://www.buttecounty.net/assessor"),
  ("Calaveras", "https://assessor.calaverasgov.us/"),
  ("Colusa", "https://www.countyofcolusa.org/148/Assessor"),
  ("Contra Costa", "https://www.contracosta.ca.gov/191/Assessor"),
  ("Del Norte", "https://www.dnco.org/departments/assessor/"),
  ("El Dorado", "https://www.edcgov.us/Government/Assessor"),
  ("Fresno", "https://www.fresnocountyca.gov/Departments/Assessor-Recorder"),
  ("Glenn", "https://www.countyofglenn.net/dept/assessor"),
  ("Humboldt", "https://humboldtgov.org/186/Assessor"),
  ("Imperial", "https://assessor.imperialcounty.org/"),
  ("Inyo", "https://www.inyocounty.us/services/assessor"),
  ("Kern", "https://assessor.kerncounty.com/"),
  ("Kings", "https://www.countyofkings.com/departments/finance/assessor"),
  ("Lake", "https://www.lakecountyca.gov/Government/Directory/Assessor_Recorder.htm"),
  ("Lassen", "https://www.lassencounty.org/dept/assessor/assessor.htm"),
  ("Los Angeles", "https://portal.assessor.lacounty.gov/"),
  ("Madera", "https://www.maderacounty.com/government/assessor"),
  ("Marin", "https://www.marincounty.org/depts/ar"),
  ("Mariposa", "https://www.mariposacounty.org/167/Assessor-Recorder"),
  ("Mendocino", "https://www.mendocinocounty.org/government/assessor-county-clerk-recorder"),
  ("Merced", "https://www.co.merced.ca.us/96/Assessor"),
  ("Modoc", "https://www.modoccounty.us/assessor/"),
  ("Mono", "https://monocounty.ca.gov/assessor"),
  ("Monterey", "https://www.co.monterey.ca.us/government/departments-a-h/assessor"),
  ("Napa", "https://www.countyofnapa.org/197/Assessor"),
  ("Nevada", "https://www.mynevadacounty.com/188/Assessor"),
  ("Orange", "https://www.ocassessor.gov/"),
  ("Placer", "https://www.placer.ca.gov/1573/Assessor"),
  ("Plumas", "https://www.plumascounty.us/138/Assessor"),
  ("Riverside", "https://www.asrclkrec.com/"),
  ("Sacramento", "https://assessor.saccounty.gov/"),
  ("San Benito", "https://www.cosb.us/departments/assessor"),
  ("San Bernardino", "https://www.sbcounty.gov/assessor/"),
  ("San Diego", "https://arcc.sdcounty.ca.gov/"),
  ("San Francisco", "https://sfassessor.org/"),
  ("San Joaquin", "https://www.sjgov.org/department/assessor"),
  ("San Luis Obispo", "https://www.slocounty.ca.gov/Departments/Assessor.aspx"),
  ("San Mateo", "https://www.smcacre.org/"),
  ("Santa Barbara", "https://www.countyofsb.org/505/Assessor"),
  ("Santa Clara", "https://www.sccassessor.org/"),
  ("Santa Cruz", "https://www.co.santa-cruz.ca.us/Departments/AssessorHome.aspx"),
  ("Shasta", "https://www.shastacounty.gov/assessor"),
  ("Sierra", "https://www.sierracounty.ca.gov/149/Assessor"),
  ("Siskiyou", "https://www.co.siskiyou.ca.us/assessor"),
  ("Solano", "https://www.solanocounty.com/depts/assessor/"),
  ("Sonoma", "https://sonomacounty.ca.gov/administrative-support-and-fiscal-services/clerk-recorder-assessor-registrar-of-voters"),
  ("Stanislaus", "https://www.stancounty.com/assessor/"),
  ("Sutter", "https://www.suttercounty.org/government/county-departments/assessor"),
  ("Tehama", "https://www.tehamacountyca.gov/government/assessor"),
  ("Trinity", "https://www.trinitycounty.org/Assessor"),
  ("Tulare", "https://tularecounty.ca.gov/assessor/"),
  ("Tuolumne", "https://www.tuolumnecounty.ca.gov/175/Assessor"),
  ("Ventura", "https://assessor.countyofventura.org/"),
  ("Yolo", "https://www.yolocounty.org/government/general-government-departments/assessor"),
  ("Yuba", "https://www.yuba.org/departments/assessor/")]

/-- Uppercase hexadecimal digit for a value below 16. -/
def hexDigit (n : ℕ) : Char :=
  if n < 10 then Char.ofNat (48 + n) else Char.ofNat (55 + n)

/-- The UTF-8 byte sequence of one character. -/
def utf8Bytes (c : Char) : List ℕ :=
  let n := c.toNat
  if n < 128 then [n]
  else if n < 2048 then [192 + n / 64, 128 + n % 64]
  else if n < 65536 then [224 + n / 4096, 128 + (n / 64) % 64, 128 + n % 64]
  else [240 + n / 262144, 128 + (n / 4096) % 64, 128 + (n / 64) % 64, 128 + n % 64]

/-- The characters `encodeURIComponent` leaves unescaped: ASCII letters
and digits and `- _ . ! ~ * ' ( )` (the quote is written by its code
39). -/
def uriUnreserved (c : Char) : Bool :=
  c.isAlpha || c.isDigit || c = '-' || c = '_' || c = '.' || c = '!' ||
    c = '~' || c = '*' || c.toNat = 39 || c = '(' || c = ')'

/-- Model of the `encodeURIComponent` builtin: every character outside
the unreserved set is replaced by the `%HH` encoding of its UTF-8
bytes. -/
def encodeURIComponent (s : String) : String :=
  String.mk (s.data.flatMap (fun c =>
    if uriUnreserved c then [c]
    else (utf8Bytes c).flatMap (fun b => ['%', hexDigit (b / 16), hexDigit (b % 16)])))

/-- Model of `String.prototype.trim` (leading and trailing whitespace
removed; ASCII whitespace, which is all the templates here produce). -/
def jsTrim (s : String) : String :=
  String.mk (((s.data.dropWhile isWs).reverse.dropWhile isWs).reverse)

/-- Template-literal interpolation of a possibly-absent value:
JS renders `undefined` as the string `"undefined"` and `null` as
`"null"`. -/
def jsTemplate : Option JVal → String
  | none => "undefined"
  | some v => jsString v

/-- `buildZillowUrl(address, city, state, zip)`: `null` for a falsy or
`"Not Found"` address, else the search URL built from the encoded,
trimmed template. -/
def buildZillowUrl (address city state zip : Option JVal) : Option String :=
  if !truthy address || decide (address = some (JVal.str "Not Found")) then none
  else
    some ("https://www.zillow.com/homes/" ++
      encodeURIComponent (jsTrim (jsTemplate address ++ ", " ++ jsTemplate city ++ ", " ++
        jsTemplate state ++ " " ++ jsTemplate zip)) ++ "_rb/")

/-- `(row.CallerCity || '').toUpperCase()`: the uppercased city key, or
`none` when `CallerCity` holds a truthy number, on which `.toUpperCase`
throws a `TypeError` (a `.null` value cannot come out of `jsOr`). -/
def cityKeyOf (r : Row) : Option String :=
  match jsOr (getVal r "CallerCity") with
  | .str s => some (strToUpper s)
  | _ => none

/-- One row of the `/api/enrich/property-tax` map, given the
successfully fetched BOE maps (city → county, county → tax info): the
four owned columns are always written (null when unresolved), non-CA
rows are returned with just those nulls, and CA rows are filled from the
two maps with the code's truthiness guards. -/
def enrichPropertyTaxRow (boe : List (String × String) × List (String × TaxInfo))
    (r : Row) : Option Row :=
  let r1 := setKey r "CallerCounty"
    (if truthy (getVal r "CallerCounty") then (getVal r "CallerCounty").getD .null else .null)
  let r2 := setKey (setKey (setKey r1 "PropertyTaxRate" .null)
    "CountyAssessedValue" .null) "TaxDataYear" .null
  if getVal r "CallerState" ≠ some (.str "CA") then some r2
  else
    (cityKeyOf r).map (fun city =>
      match lookupStr city boe.1 with
      | none => r2
      | some county =>
        if county = "" then r2
        else
          let r3 := setKey r2 "CallerCounty" (.str county)
          match lookupStr (strToUpper county) boe.2 with
          | some taxInfo =>
            setKey (setKey (setKey r3 "PropertyTaxRate" (.num taxInfo.avgTaxRate))
              "CountyAssessedValue" (.num taxInfo.netAssessedValue))
              "TaxDataYear" (.str taxInfo.year)
          | none => r3)

/-- The `/api/enrich/property-tax` handler body after a successful
`fetchBOEData()` (a fetch failure answers 500 and leaves both cache
variables untouched): maps the rows, recomputes the column union across
the mutated rows, and replaces both cache variables. -/
def propertyTaxHandler (st : St)
    (boe : List (String × String) × List (String × TaxInfo)) (data : List Row) :
    Option (St × List Row × List String) :=
  (mapOpt (enrichPropertyTaxRow boe) data).map (fun e =>
    ({st with cachedData := some e, cachedColumns := some (columnUnion e)}, e, columnUnion e))

/-- One row of the `/api/enrich/property-links` map, given the
successfully fetched city → county map: `ZillowLink` and
`CountyAssessorLink` are always written (null first), the Zillow link is
filled for a truthy non-`"Not Found"` address, and for CA rows the
county (the row's own truthy value, else the map's) is stored together
with its assessor URL when the county and the table value are truthy. -/
def enrichPropertyLinksRow (boeCityToCounty : List (String × String)) (r : Row) :
    Option Row :=
  let r1 := setKey (setKey r "ZillowLink" .null) "CountyAssessorLink" .null
  let r2 :=
    if truthy (getVal r "CallerAddress") &&
        !decide (getVal r "CallerAddress" = some (JVal.str "Not Found")) then
      setKey r1 "ZillowLink"
        (match buildZillowUrl (getVal r "CallerAddress") (getVal r "CallerCity")
            (getVal r "CallerState") (getVal r "CallerZip") with
         | some u => .str u
         | none => .null)
    else r1
  if getVal r "CallerState" = some (.str "CA") then
    (cityKeyOf r).map (fun city =>
      let county : Option JVal :=
        if truthy (getVal r "CallerCounty") then getVal r "CallerCounty"
        else (lookupStr city boeCityToCounty).map JVal.str
      if truthy county then
        match lookupStr (jsString (county.getD .null)) caCountyAssessors with
        | some url =>
          if url = "" then r2
          else setKey (setKey r2 "CallerCounty" (county.getD .null))
            "CountyAssessorLink" (.str url)
        | none => r2
      else r2)
  else some r2

/-- The `/api/enrich/property-links` handler body after a successful
`fetchBOEData()` (a fetch failure answers 500 and leaves both cache
variables untouched): maps the rows, recomputes the column union across
the mutated rows, and replaces both cache variables. -/
def propertyLinksHandler (st : St) (boeCityToCounty : List (String × String))
    (data : List Row) : Option (St × List Row × List String) :=
  (mapOpt (enrichPropertyLinksRow boeCityToCounty) data).map (fun e =>
    ({st with cachedData := some e, cachedColumns := some (columnUnion e)}, e, columnUnion e))

lemma lookupStr_setAssoc_self {α : Type} (l : List (String × α)) (k : String) (v : α) :
    lookupStr k (setAssoc l k v) = some v := by
  induction l with
  | nil => simp [setAssoc, lookupStr]
  | cons p ps ih =>
    by_cases h : p.1 = k
    · simp [setAssoc, lookupStr, h]
    · simp [setAssoc, lookupStr, h, ih]

lemma lookupStr_setAssoc_ne {α : Type} (l : List (String × α)) (k k' : String) (v : α)
    (h : k' ≠ k) : lookupStr k' (setAssoc l k v) = lookupStr k' l := by
  induction l with
  | nil => simp [setAssoc, lookupStr, Ne.symm h]
  | cons p ps ih =>
    by_cases hp : p.1 = k
    · subst hp
      simp [setAssoc, lookupStr, Ne.symm h, h]
    · by_cases hp' : p.1 = k'
      · simp [setAssoc, lookupStr, hp, hp', h]
      · simp [setAssoc, lookupStr, hp, hp', ih]

lemma lookupStr_mem {α : Type} {l : List (String × α)} {k : String} {v : α}
    (h : lookupStr k l = some v) : (k, v) ∈ l := by
  induction l with
  | nil => simp [lookupStr] at h
  | cons p ps ih =>
    obtain ⟨pk, pv⟩ := p
    by_cases hp : pk = k
    · simp [lookupStr, hp] at h
      subst hp
      subst h
      exact List.mem_cons_self _ _
    · simp [lookupStr, hp] at h
      exact List.mem_cons_of_mem _ (ih h)

lemma map_fst_setAssoc {α : Type} (l : List (String × α)) (k : String) (v : α) :
    (setAssoc l k v).map Prod.fst = addCol (l.map Prod.fst) k := by
  induction l with
  | nil => simp [setAssoc, addCol]
  | cons p ps ih =>
    by_cases hp : p.1 = k
    · simp [setAssoc, hp, addCol]
    · simp only [setAssoc, if_neg hp, List.map_cons, ih, addCol]
      by_cases hm : k ∈ ps.map Prod.fst
      · simp [hm, Ne.symm hp, List.mem_cons]
      · simp [hm, Ne.symm hp, List.mem_cons]

lemma mem_addCol {l : List String} {c d : String} :
    c ∈ addCol l d ↔ c ∈ l ∨ c = d := by
  unfold addCol
  by_cases h : d ∈ l
  · simp only [if_pos h]
    constructor
    · exact fun hc => Or.inl hc
    · rintro (hc | rfl)
      · exact hc
      · exact h
  · simp [if_neg h]

lemma nodup_addCol {l : List String} (h : l.Nodup) (d : String) :
    (addCol l d).Nodup := by
  unfold addCol
  by_cases hm : d ∈ l
  · simpa [hm]
  · rw [if_neg hm]
    refine List.Nodup.append h (List.nodup_singleton d) ?_
    intro a ha hd
    simp at hd
    subst hd
    exact hm ha

lemma mem_addCols {cs : List String} {acc : List String} {c : String} :
    c ∈ addCols acc cs ↔ c ∈ acc ∨ c ∈ cs := by
  induction cs generalizing acc with
  | nil => simp [addCols]
  | cons d cs ih =>
    show c ∈ addCols (addCol acc d) cs ↔ _
    rw [ih, mem_addCol]
    simp [List.mem_cons]
    tauto

lemma nodup_addCols {cs acc : List String} (h : acc.Nodup) :
    (addCols acc cs).Nodup := by
  induction cs generalizing acc with
  | nil => simpa [addCols]
  | cons d cs ih => exact ih (nodup_addCol h d)

lemma foldl_addCol_eq_append (l acc : List String) (h : (acc ++ l).Nodup) :
    l.foldl addCol acc = acc ++ l := by
  induction l generalizing acc with
  | nil => simp
  | cons a l ih =>
    have hnd : (acc ++ [a] ++ l).Nodup := by simpa using h
    have h1 : (acc ++ [a]).Nodup :=
      List.Nodup.sublist (List.sublist_append_left (acc ++ [a]) l) hnd
    have ha : a ∉ acc := by
      rw [List.nodup_append] at h1
      intro hmem
      exact h1.2.2 hmem (by simp)
    show l.foldl addCol (addCol acc a) = _
    rw [show addCol acc a = acc ++ [a] from by simp [addCol, ha], ih _ hnd]
    simp

lemma foldl_addCol_self (l : List String) (h : l.Nodup) :
    l.foldl addCol [] = l := by
  simpa using foldl_addCol_eq_append l [] (by simpa using h)

lemma getVal_setKey_self (r : Row) (k : String) (v : JVal) :
    getVal (setKey r k v) k = some v :=
  lookupStr_setAssoc_self r k v

lemma getVal_setKey_ne (r : Row) (k k' : String) (v : JVal) (h : k' ≠ k) :
    getVal (setKey r k v) k' = getVal r k' :=
  lookupStr_setAssoc_ne r k k' v h

lemma rowKeys_setKey (r : Row) (k : String) (v : JVal) :
    rowKeys (setKey r k v) = addCol (rowKeys r) k :=
  map_fst_setAssoc r k v

lemma getVal_foldl_setKey (cols : List String) (f : String → JVal) (init : Row) (c : String) :
    getVal (cols.foldl (fun acc x => setKey acc x (f x)) init) c =
      if c ∈ cols then some (f c) else getVal init c := by
  induction cols generalizing init with
  | nil => simp
  | cons d cols ih =>
    show getVal (cols.foldl _ (setKey init d (f d))) c = _
    rw [ih]
    by_cases hc : c ∈ cols
    · simp [hc, List.mem_cons]
    · by_cases hcd : c = d
      · subst hcd
        simp [hc, getVal_setKey_self]
      · simp [hc, hcd, getVal_setKey_ne init d c (f d) hcd]

lemma rowKeys_foldl_setKey (cols : List String) (f : String → JVal) (init : Row) :
    rowKeys (cols.foldl (fun acc x => setKey acc x (f x)) init) =
      cols.foldl addCol (rowKeys init) := by
  induction cols generalizing init with
  | nil => simp
  | cons d cols ih =>
    show rowKeys (cols.foldl _ (setKey init d (f d))) = _
    rw [ih, rowKeys_setKey]
    rfl

lemma rowKeys_normalizeRow (cols : List String) (r : Row) :
    rowKeys (normalizeRow cols r) =
      addCol (addCol (cols.foldl addCol []) "_sourceFile") "_sourceFileId" := by
  unfold normalizeRow
  rw [rowKeys_setKey, rowKeys_setKey, rowKeys_foldl_setKey]
  rfl

lemma getVal_normalizeRow_of_ne (cols : List String) (r : Row) (c : String)
    (h1 : c ≠ "_sourceFile") (h2 : c ≠ "_sourceFileId") :
    getVal (normalizeRow cols r) c =
      if c ∈ cols then some ((getVal r c).getD .null) else none := by
  unfold normalizeRow
  rw [getVal_setKey_ne _ _ _ _ h2, getVal_setKey_ne _ _ _ _ h1,
    getVal_foldl_setKey]
  rfl

lemma getVal_normalizeRow_sourceFileId (cols : List String) (r : Row) :
    getVal (normalizeRow cols r) "_sourceFileId" =
      some ((getVal r "_sourceFileId").getD .null) := by
  unfold normalizeRow
  exact getVal_setKey_self _ _ _

lemma getVal_normalizeRow_sourceFile (cols : List String) (r : Row) :
    getVal (normalizeRow cols r) "_sourceFile" =
      some ((getVal r "_sourceFile").getD .null) := by
  unfold normalizeRow
  rw [getVal_setKey_ne _ _ _ _ (by decide)]
  exact getVal_setKey_self _ _ _

lemma getVal_tagRow_sourceFileId (f : SourceFile) (r : Row) :
    getVal (tagRow f r) "_sourceFileId" = some (.num (f.id : ℚ)) := by
  unfold tagRow
  exact getVal_setKey_self _ _ _

lemma getVal_tagRow_sourceFile (f : SourceFile) (r : Row) :
    getVal (tagRow f r) "_sourceFile" = some (.str f.name) := by
  unfold tagRow
  rw [getVal_setKey_ne _ _ _ _ (by decide)]
  exact getVal_setKey_self _ _ _

lemma getVal_tagRow_of_ne (f : SourceFile) (r : Row) (c : String)
    (h1 : c ≠ "_sourceFile") (h2 : c ≠ "_sourceFileId") :
    getVal (tagRow f r) c = getVal r c := by
  unfold tagRow
  rw [getVal_setKey_ne _ _ _ _ h2, getVal_setKey_ne _ _ _ _ h1]

lemma nodup_foldl_addCols {fs : List SourceFile} {acc : List String} (h : acc.Nodup) :
    (fs.foldl (fun a f => addCols a f.cols) acc).Nodup := by
  induction fs generalizing acc with
  | nil => simpa
  | cons f fs ih => exact ih (nodup_addCols h)

lemma nodup_mergeColumns (fs : List SourceFile) : (mergeColumns fs).Nodup :=
  nodup_foldl_addCols List.nodup_nil

lemma mem_foldl_addCols {fs : List SourceFile} {acc : List String} {c : String} :
    c ∈ fs.foldl (fun a f => addCols a f.cols) acc ↔ c ∈ acc ∨ ∃ f ∈ fs, c ∈ f.cols := by
  induction fs generalizing acc with
  | nil => simp
  | cons f fs ih =>
    show c ∈ fs.foldl _ (addCols acc f.cols) ↔ _
    rw [ih, mem_addCols]
    simp
    tauto

lemma mem_mergeColumns {fs : List SourceFile} {c : String} :
    c ∈ mergeColumns fs ↔ ∃ f ∈ fs, c ∈ f.cols := by
  unfold mergeColumns
  rw [mem_foldl_addCols]
  simp

lemma lookupStr_eq_none_of_not_mem {α : Type} {l : List (String × α)} {k : String}
    (h : k ∉ l.map Prod.fst) : lookupStr k l = none := by
  induction l with
  | nil => rfl
  | cons p ps ih =>
    simp only [List.map_cons, List.mem_cons] at h
    push_neg at h
    simp [lookupStr, Ne.symm h.1, ih h.2]

lemma getVal_eq_none_of_not_mem {r : Row} {c : String} (h : c ∉ rowKeys r) :
    getVal r c = none :=
  lookupStr_eq_none_of_not_mem h

lemma hasKey_of_getVal_eq_some {r : Row} {c : String} {v : JVal}
    (h : getVal r c = some v) : hasKey r c = true := by
  simp [hasKey, h]

lemma loadAllData_init_columns (env : Env) (h : env.activeFiles ≠ []) :
    (loadAllData env St.init false).1.columns = mergeColumns (readableFiles env) := by
  have he : env.activeFiles.isEmpty = false := by simpa [List.isEmpty_iff] using h
  simp [loadAllData, St.init, he]

lemma loadAllData_init_data (env : Env) (h : env.activeFiles ≠ []) :
    (loadAllData env St.init false).1.data =
      ((readableFiles env).flatMap (fun f => f.rows.map (tagRow f))).map
        (normalizeRow (mergeColumns (readableFiles env))) := by
  have he : env.activeFiles.isEmpty = false := by simpa [List.isEmpty_iff] using h
  simp [loadAllData, St.init, he]

/-- Registry with one active file of a single column `CallerID` and one
row (the scenario of spec §8 with one upload). -/
def envC1 : Env :=
  ⟨[⟨1, "a.csv", true, ([[("CallerID", JVal.str "5551234567")]] : List Row), ["CallerID"]⟩], none⟩

/-- The normalized form of the single row of `envC1`. -/
def rowC1 : Row :=
  [("CallerID", JVal.str "5551234567"), ("_sourceFile", JVal.str "a.csv"),
   ("_sourceFileId", JVal.num 1)]

/-- C1, counterexample.  On a registry with one file of single column
`CallerID`, `loadAllData` returns `columns = ["CallerID"]` while the
(only) row additionally carries the keys `_sourceFile` and
`_sourceFileId`: a row's key set is strictly larger than the returned
`columns` list, so the claimed equality fails. -/
theorem c1_rectangularity_counterexample :
    (loadAllData envC1 St.init false).1.columns = ["CallerID"] ∧
    (loadAllData envC1 St.init false).1.data.map rowKeys =
      [["CallerID", "_sourceFile", "_sourceFileId"]] ∧
    "_sourceFile" ∉ (loadAllData envC1 St.init false).1.columns := by
  decide

/-- C1, amended.  For every merged dataset built from a nonempty
registry, each row's key list equals the returned `columns` list
extended with `_sourceFile` and `_sourceFileId` (each appended unless it
already is a file column); in particular all rows share one key set. -/
theorem c1_rectangularity_amended (env : Env) (h : env.activeFiles ≠ []) :
    ∀ r ∈ (loadAllData env St.init false).1.data,
      rowKeys r =
        addCol (addCol ((loadAllData env St.init false).1.columns) "_sourceFile")
          "_sourceFileId" := by
  intro r hr
  rw [loadAllData_init_data env h] at hr
  obtain ⟨r0, _, rfl⟩ := List.mem_map.mp hr
  rw [loadAllData_init_columns env h, rowKeys_normalizeRow,
    foldl_addCol_self _ (nodup_mergeColumns _)]

theorem c1_rectangularity_amended_witness :
    rowKeys rowC1 =
      addCol (addCol ((loadAllData envC1 St.init false).1.columns) "_sourceFile")
        "_sourceFileId" :=
  c1_rectangularity_amended envC1 (by decide) rowC1 (by decide)

/-- Registry with no active files but an existing default `DATA_FILE`
holding one `CallerID` row. -/
def envC2 : Env :=
  ⟨[], some (([[("CallerID", JVal.str "1")]] : List Row), ["CallerID"])⟩

/-- C2, counterexample.  On the default-file path (no registered files)
the returned rows are the raw parse result: the only row carries neither
`_sourceFile` nor `_sourceFileId`, and neither field appears in the
returned column list (the latter also fails on the registered-file path,
see the C1 counterexample). -/
theorem c2_provenance_counterexample :
    (loadAllData envC2 St.init false).1.data = ([[("CallerID", JVal.str "1")]] : List Row) ∧
    hasKey ((loadAllData envC2 St.init false).1.data.headD []) "_sourceFile" = false ∧
    hasKey ((loadAllData envC2 St.init false).1.data.headD []) "_sourceFileId" = false ∧
    "_sourceFile" ∉ (loadAllData envC2 St.init false).1.columns ∧
    "_sourceFileId" ∉ (loadAllData envC2 St.init false).1.columns := by
  decide

/-- C2, amended.  When the dataset is built from registered files, every
row carries both provenance fields; but the fields are not added to the
returned `columns` list (they appear there only if some source file
itself has such a column), and the default-file dataset's rows carry no
provenance fields at all (counterexample above). -/
theorem c2_provenance_amended :
    (∀ env : Env, env.activeFiles ≠ [] →
      ∀ r ∈ (loadAllData env St.init false).1.data,
        hasKey r "_sourceFile" = true ∧ hasKey r "_sourceFileId" = true) ∧
    (∀ env : Env, env.activeFiles ≠ [] →
      (∀ f ∈ env.activeFiles, "_sourceFile" ∉ f.cols ∧ "_sourceFileId" ∉ f.cols) →
      "_sourceFile" ∉ (loadAllData env St.init false).1.columns ∧
      "_sourceFileId" ∉ (loadAllData env St.init false).1.columns) := by
  constructor
  · intro env h r hr
    rw [loadAllData_init_data env h] at hr
    obtain ⟨r0, _, rfl⟩ := List.mem_map.mp hr
    exact ⟨hasKey_of_getVal_eq_some (getVal_normalizeRow_sourceFile _ _),
      hasKey_of_getVal_eq_some (getVal_normalizeRow_sourceFileId _ _)⟩
  · intro env h hcols
    rw [loadAllData_init_columns env h]
    constructor
    · intro hmem
      obtain ⟨f, hf, hcf⟩ := mem_mergeColumns.mp hmem
      exact (hcols f (List.mem_of_mem_filter hf)).1 hcf
    · intro hmem
      obtain ⟨f, hf, hcf⟩ := mem_mergeColumns.mp hmem
      exact (hcols f (List.mem_of_mem_filter hf)).2 hcf

theorem c2_provenance_amended_witness :
    (hasKey rowC1 "_sourceFile" = true ∧ hasKey rowC1 "_sourceFileId" = true) ∧
    ("_sourceFile" ∉ (loadAllData envC1 St.init false).1.columns ∧
     "_sourceFileId" ∉ (loadAllData envC1 St.init false).1.columns) :=
  ⟨c2_provenance_amended.1 envC1 (by decide) rowC1 (by decide),
   c2_provenance_amended.2 envC1 (by decide) (by decide)⟩

/-- Registry fixture for the union-correctness property: two active,
readable files, the first with column list `[x, y]`, the second with
`[y, z]`. -/
def twoFileEnv (x y z : String) (idA idB : ℤ) (nA nB : String)
    (rowsA rowsB : List Row) : Env :=
  ⟨[⟨idA, nA, true, rowsA, [x, y]⟩, ⟨idB, nB, true, rowsB, [y, z]⟩], none⟩

/-- C3.  For two active files with column sets `{x, y}` and `{y, z}`
(distinct, non-provenance names; rows keyed within their file's
columns), the merged dataset's columns are exactly `[x, y, z]`, every
row originating from file A (identified by its provenance id) has
`z = null`, and every row originating from file B has `x = null`. -/
theorem c3_union_correctness (x y z : String) (idA idB : ℤ) (nA nB : String)
    (rowsA rowsB : List Row)
    (hxy : x ≠ y) (hxz : x ≠ z) (hyz : y ≠ z) (hid : idA ≠ idB)
    (hx1 : x ≠ "_sourceFile") (hx2 : x ≠ "_sourceFileId")
    (hz1 : z ≠ "_sourceFile") (hz2 : z ≠ "_sourceFileId")
    (hA : ∀ r ∈ rowsA, ∀ k ∈ rowKeys r, k = x ∨ k = y)
    (hB : ∀ r ∈ rowsB, ∀ k ∈ rowKeys r, k = y ∨ k = z) :
    (loadAllData (twoFileEnv x y z idA idB nA nB rowsA rowsB) St.init false).1.columns
        = [x, y, z] ∧
    ∀ r ∈ (loadAllData (twoFileEnv x y z idA idB nA nB rowsA rowsB) St.init false).1.data,
      (getVal r "_sourceFileId" = some (.num (idA : ℚ)) → getVal r z = some .null) ∧
      (getVal r "_sourceFileId" = some (.num (idB : ℚ)) → getVal r x = some .null) := by
  have hne : (twoFileEnv x y z idA idB nA nB rowsA rowsB).activeFiles ≠ [] := by
    simp [twoFileEnv]
  have hread : readableFiles (twoFileEnv x y z idA idB nA nB rowsA rowsB) =
      [⟨idA, nA, true, rowsA, [x, y]⟩, ⟨idB, nB, true, rowsB, [y, z]⟩] := by
    simp [readableFiles, twoFileEnv]
  have hcols : mergeColumns
      [(⟨idA, nA, true, rowsA, [x, y]⟩ : SourceFile), ⟨idB, nB, true, rowsB, [y, z]⟩]
      = [x, y, z] := by
    simp [mergeColumns, addCols, addCol, List.mem_cons, Ne.symm hxy, Ne.symm hxz,
      Ne.symm hyz]
  have hidq : (idA : ℚ) ≠ (idB : ℚ) := by
    exact_mod_cast hid
  refine ⟨by rw [loadAllData_init_columns _ hne, hread, hcols], ?_⟩
  intro r hr
  rw [loadAllData_init_data _ hne, hread, hcols] at hr
  simp only [List.flatMap_cons, List.flatMap_nil, List.append_nil, List.map_append,
    List.mem_append, List.mem_map] at hr
  rcases hr with ⟨ra, ⟨r0, hr0, rfl⟩, rfl⟩ | ⟨rb, ⟨r0, hr0, rfl⟩, rfl⟩
  · have hsid : getVal (normalizeRow [x, y, z]
        (tagRow ⟨idA, nA, true, rowsA, [x, y]⟩ r0)) "_sourceFileId"
        = some (.num (idA : ℚ)) := by
      rw [getVal_normalizeRow_sourceFileId, getVal_tagRow_sourceFileId]
      rfl
    constructor
    · intro _
      rw [getVal_normalizeRow_of_ne _ _ _ hz1 hz2]
      have hzr : getVal (tagRow ⟨idA, nA, true, rowsA, [x, y]⟩ r0) z = none := by
        rw [getVal_tagRow_of_ne _ _ _ hz1 hz2]
        refine getVal_eq_none_of_not_mem ?_
        intro hmem
        rcases hA r0 hr0 z hmem with h | h
        · exact hxz h.symm
        · exact hyz h.symm
      simp [hzr, List.mem_cons]
    · intro hctr
      rw [hsid] at hctr
      simp at hctr
      exact absurd hctr hid
  · have hsid : getVal (normalizeRow [x, y, z]
        (tagRow ⟨idB, nB, true, rowsB, [y, z]⟩ r0)) "_sourceFileId"
        = some (.num (idB : ℚ)) := by
      rw [getVal_normalizeRow_sourceFileId, getVal_tagRow_sourceFileId]
      rfl
    constructor
    · intro hctr
      rw [hsid] at hctr
      simp at hctr
      exact absurd hctr.symm hid
    · intro _
      rw [getVal_normalizeRow_of_ne _ _ _ hx1 hx2]
      have hxr : getVal (tagRow ⟨idB, nB, true, rowsB, [y, z]⟩ r0) x = none := by
        rw [getVal_tagRow_of_ne _ _ _ hx1 hx2]
        refine getVal_eq_none_of_not_mem ?_
        intro hmem
        rcases hB r0 hr0 x hmem with h | h
        · exact hxy h
        · exact hxz h
      simp [hxr, List.mem_cons]

theorem c3_union_correctness_witness :
    (loadAllData (twoFileEnv "x" "y" "z" 1 2 "A" "B"
        ([[("x", JVal.str "1"), ("y", JVal.str "2")]] : List Row)
        ([[("y", JVal.str "3"), ("z", JVal.str "4")]] : List Row)) St.init false).1.columns
      = ["x", "y", "z"] ∧
    ∀ r ∈ (loadAllData (twoFileEnv "x" "y" "z" 1 2 "A" "B"
        ([[("x", JVal.str "1"), ("y", JVal.str "2")]] : List Row)
        ([[("y", JVal.str "3"), ("z", JVal.str "4")]] : List Row)) St.init false).1.data,
      (getVal r "_sourceFileId" = some (.num ((1 : ℤ) : ℚ)) → getVal r "z" = some .null) ∧
      (getVal r "_sourceFileId" = some (.num ((2 : ℤ) : ℚ)) → getVal r "x" = some .null) :=
  c3_union_correctness "x" "y" "z" 1 2 "A" "B" _ _
    (by decide) (by decide) (by decide) (by decide)
    (by decide) (by decide) (by decide) (by decide)
    (by decide) (by decide)

lemma post_cachedData_isSome (env : Env) (st : St) (fr : Bool) :
    ((loadAllData env st fr).2.1).cachedData.isSome = true := by
  unfold loadAllData
  by_cases hg : (st.cachedData.isSome && !fr) = true
  · rw [if_pos hg]
    simp only [Bool.and_eq_true] at hg
    exact hg.1
  · rw [if_neg hg]
    by_cases he : env.activeFiles.isEmpty
    · simp only [if_pos he]
      cases env.defaultData <;> simp
    · simp [he]

/-- C5.  A cache state left behind by any `loadAllData` call (its
`cachedData` is always populated, even by the empty-registry paths where
it is `some []`) makes a subsequent `loadAllData(false)` answer entirely
from the cache: the exact cached data, columns and files are returned,
the cache state is unchanged, and the file-read counter (third
component) is 0 — no file is re-read or re-parsed. -/
theorem c5_cache_hit_no_reparse (env0 env : Env) (st0 : St) (fr0 : Bool) :
    loadAllData env ((loadAllData env0 st0 fr0).2.1) false =
      (⟨((loadAllData env0 st0 fr0).2.1).cachedData.getD [],
        ((loadAllData env0 st0 fr0).2.1).cachedColumns.getD [],
        ((loadAllData env0 st0 fr0).2.1).filesCache.getD []⟩,
       (loadAllData env0 st0 fr0).2.1, 0) := by
  have h := post_cachedData_isSome env0 st0 fr0
  set st1 := (loadAllData env0 st0 fr0).2.1 with hst1
  unfold loadAllData
  rw [if_pos]
  simp [h]

lemma hasKey_setKey_self (r : Row) (k : String) (v : JVal) :
    hasKey (setKey r k v) k = true :=
  hasKey_of_getVal_eq_some (getVal_setKey_self r k v)

lemma hasKey_setKey_of_hasKey (r : Row) (k k' : String) (v : JVal)
    (h : hasKey r k' = true) : hasKey (setKey r k v) k' = true := by
  by_cases hk : k' = k
  · subst hk
    exact hasKey_setKey_self r k' v
  · unfold hasKey at h ⊢
    rw [getVal_setKey_ne r k k' v hk]
    exact h

lemma enrichCarrierRow_of_resolved (r : Row)
    (h1 : truthy (getVal r "CallerCarrier") = true)
    (h2 : getVal r "CallerCarrier" ≠ some (.str "Not Found")) :
    enrichCarrierRow r = some r := by
  unfold enrichCarrierRow carrierGuard
  simp [h1, h2]

lemma lookupStr_areaCode_none_of_short (k : String) (h : k.data.length < 3) :
    lookupStr k areaCodeCarriers = none := by
  cases hlk : lookupStr k areaCodeCarriers with
  | none => rfl
  | some v =>
    have hmem := lookupStr_mem hlk
    have hall : ∀ p ∈ areaCodeCarriers, p.1.data.length = 3 := by decide
    have h3 : k.data.length = 3 := hall _ hmem
    omega

lemma carrierFill_of_short (r : Row) (phone : String)
    (h : (phone.data.filter Char.isDigit).length < 3) :
    carrierFill r phone = r := by
  simp only [carrierFill]
  have hlen : (String.mk ((digitsOnly phone).data.take 3)).data.length < 3 := by
    simp only [digitsOnly, List.length_take]
    omega
  rw [lookupStr_areaCode_none_of_short _ hlen, if_neg]
  intro hc
  have : (String.mk ((digitsOnly phone).data.take 3)).data.length = 3 := hc
  omega

lemma mapOpt_getElem? (f : Row → Option Row) :
    ∀ (l l' : List Row), mapOpt f l = some l' → ∀ i : ℕ, l'[i]? = (l[i]?).bind f := by
  intro l
  induction l with
  | nil =>
    intro l' h i
    simp [mapOpt] at h
    subst h
    simp
  | cons r rs ih =>
    intro l' h i
    cases hf : f r with
    | none => simp [mapOpt, hf] at h
    | some r' =>
      cases hm : mapOpt f rs with
      | none => simp [mapOpt, hf, hm] at h
      | some rs' =>
        simp only [mapOpt, hf, hm] at h
        injection h with h
        subst h
        cases i with
        | zero => simp [hf]
        | succ i => simpa using ih rs' hm i

/-- C6.  Running the carrier pass leaves every row whose `CallerCarrier`
is already truthy (non-empty) and different from `"Not Found"` exactly
as it is, and running it a second time returns those rows equal to the
first run's output (which is the original row). -/
theorem c6_carrier_idempotence_on_resolved :
    ∀ (data out : List Row), mapOpt enrichCarrierRow data = some out →
      ∀ (i : ℕ) (r : Row), data[i]? = some r →
        truthy (getVal r "CallerCarrier") = true →
        getVal r "CallerCarrier" ≠ some (.str "Not Found") →
        out[i]? = some r ∧
        ∀ out2, mapOpt enrichCarrierRow out = some out2 → out2[i]? = some r := by
  intro data out h i r hi h1 h2
  have hfix := enrichCarrierRow_of_resolved r h1 h2
  have hout : out[i]? = some r := by
    rw [mapOpt_getElem? enrichCarrierRow data out h i, hi]
    simpa using hfix
  refine ⟨hout, ?_⟩
  intro out2 h2'
  rw [mapOpt_getElem? enrichCarrierRow out out2 h2' i, hout]
  simpa using hfix

theorem c6_carrier_idempotence_witness :
    ([[("CallerCarrier", JVal.str "Verizon")]] : List Row)[0]? =
      some [("CallerCarrier", JVal.str "Verizon")] :=
  (c6_carrier_idempotence_on_resolved
      ([[("CallerCarrier", JVal.str "Verizon")]] : List Row)
      ([[("CallerCarrier", JVal.str "Verizon")]] : List Row)
      (by decide) 0 [("CallerCarrier", JVal.str "Verizon")] (by decide)
      (by decide) (by decide)).2
    ([[("CallerCarrier", JVal.str "Verizon")]] : List Row) (by decide)

/-- The hypothesis shape of the implicit frame claim about the carrier
pass: `CallerID` is absent, `null`, or a string with fewer than 3 digit
characters. -/
def fewDigits : Option JVal → Bool
  | none => true
  | some .null => true
  | some (.str s) => decide ((s.data.filter Char.isDigit).length < 3)
  | some (.num _) => false

/-- C9.  A row whose carrier is missing/falsy or `"Not Found"` but whose
`CallerID` yields fewer than 3 digit characters passes through the
carrier map completely unchanged — in particular no `CallerCarrier` key
and no sentinel is added — whereas the geocode pass puts `Latitude` and
`Longitude` on every row and the timezone pass puts `CallerTimezone` on
every row, unconditionally. -/
theorem c9_carrier_frame_vs_geocode_timezone :
    (∀ r : Row, carrierGuard r = true → fewDigits (getVal r "CallerID") = true →
      enrichCarrierRow r = some r) ∧
    (∀ r : Row, hasKey (enrichGeocodeRow r) "Latitude" = true ∧
      hasKey (enrichGeocodeRow r) "Longitude" = true) ∧
    (∀ r : Row, hasKey (enrichTimezoneRow r) "CallerTimezone" = true) := by
  refine ⟨?_, ?_, ?_⟩
  · intro r hg hfd
    unfold enrichCarrierRow
    rw [if_pos hg]
    cases hv : getVal r "CallerID" with
    | none =>
      simp [phoneOf, carrierFill_of_short r "" (by simp)]
    | some v =>
      cases v with
      | null => simp [phoneOf, carrierFill_of_short r "" (by simp)]
      | num q =>
        rw [hv] at hfd
        simp [fewDigits] at hfd
      | str s =>
        rw [hv] at hfd
        simp only [fewDigits, decide_eq_true_eq] at hfd
        by_cases hs : s = ""
        · subst hs
          simp [phoneOf, carrierFill_of_short r "" (by simp)]
        · simp [phoneOf, hs, carrierFill_of_short r s hfd]
  · intro r
    constructor
    · simp only [enrichGeocodeRow]
      split
      · split
        · exact hasKey_setKey_of_hasKey _ _ _ _ (hasKey_setKey_self _ _ _)
        · exact hasKey_setKey_of_hasKey _ _ _ _ (hasKey_setKey_self _ _ _)
      · exact hasKey_setKey_of_hasKey _ _ _ _ (hasKey_setKey_self _ _ _)
    · simp only [enrichGeocodeRow]
      split
      · split
        · exact hasKey_setKey_self _ _ _
        · exact hasKey_setKey_self _ _ _
      · exact hasKey_setKey_self _ _ _
  · intro r
    simp only [enrichTimezoneRow]
    split
    · exact hasKey_setKey_self _ _ _
    · exact hasKey_setKey_self _ _ _

theorem c9_carrier_frame_witness :
    enrichCarrierRow ([("CallerID", JVal.str "55")] : Row) =
      some [("CallerID", JVal.str "55")] ∧
    hasKey (enrichGeocodeRow ([] : Row)) "Latitude" = true ∧
    hasKey (enrichTimezoneRow ([] : Row)) "CallerTimezone" = true :=
  ⟨c9_carrier_frame_vs_geocode_timezone.1 ([("CallerID", JVal.str "55")] : Row)
      (by decide) (by decide),
   (c9_carrier_frame_vs_geocode_timezone.2.1 ([] : Row)).1,
   c9_carrier_frame_vs_geocode_timezone.2.2 ([] : Row)⟩

lemma lookupStr_isSome_iff {α : Type} {l : List (String × α)} {k : String} :
    (lookupStr k l).isSome = true ↔ k ∈ l.map Prod.fst := by
  induction l with
  | nil => simp [lookupStr]
  | cons p ps ih =>
    by_cases hp : p.1 = k
    · simp [lookupStr, hp]
    · simp [lookupStr, hp, ih, Ne.symm hp]

lemma hasKey_iff_mem_rowKeys {r : Row} {c : String} :
    hasKey r c = true ↔ c ∈ rowKeys r :=
  lookupStr_isSome_iff

lemma mem_foldl_addCols_rows {rows : List Row} {acc : List String} {c : String} :
    c ∈ rows.foldl (fun a r => addCols a (rowKeys r)) acc ↔
      c ∈ acc ∨ ∃ r ∈ rows, c ∈ rowKeys r := by
  induction rows generalizing acc with
  | nil => simp
  | cons r rows ih =>
    show c ∈ rows.foldl _ (addCols acc (rowKeys r)) ↔ _
    rw [ih, mem_addCols]
    simp
    tauto

lemma mem_columnUnion {rows : List Row} {c : String} :
    c ∈ columnUnion rows ↔ ∃ r ∈ rows, c ∈ rowKeys r := by
  unfold columnUnion
  rw [mem_foldl_addCols_rows]
  simp

/-- The row set of the C4 counterexample: two rows with disjoint keys,
none of which the carrier pass can touch. -/
def dataC4 : List Row := [[("A", JVal.str "1")], [("B", JVal.str "2")]]

/-- Cache state for the C4 witness (a stale column list is in the
cache). -/
def stC4 : St := ⟨none, some ["X"], none⟩

/-- The output triple `carrierHandler stC4 dataC4` actually produces. -/
def outC4 : St × List Row × List String :=
  (⟨some dataC4, some ["X"], none⟩, dataC4, ["A"])

/-- C4, counterexample.  After the carrier pass runs on a two-row set
with keys `A` and `B` (from an initial cache), the cached column list is
still `null` — it is not recomputed — and the columns reported to the
caller are the first row's keys `["A"]`, not the key union
`["A", "B"]` of the returned rows. -/
theorem c4_carrier_columns_counterexample :
    carrierHandler St.init dataC4 = some (⟨some dataC4, none, none⟩, dataC4, ["A"]) ∧
    columnUnion dataC4 = ["A", "B"] := by
  decide

/-- C4, amended.  The geocode, timezone, property-tax and property-links
enrichment passes do recompute the full column union across the mutated
rows and store it together with the mutated rows as the new cache
contents; the carrier pass alone stores only the mutated rows, leaves
the cached column list untouched, and reports the first returned row's
key list as the column list. -/
theorem c4_enrichment_column_recompute :
    (∀ (st : St) (data : List Row) (out : St × List Row × List String),
      carrierHandler st data = some out →
      out.1.cachedColumns = st.cachedColumns ∧
      out.1.cachedData = some out.2.1 ∧
      out.2.2 = rowKeys (out.2.1.headD [])) ∧
    (∀ (st : St) (data : List Row),
      (geocodeHandler st data).1.cachedColumns =
        some (columnUnion ((geocodeHandler st data).2.1)) ∧
      (geocodeHandler st data).1.cachedData = some ((geocodeHandler st data).2.1) ∧
      ∀ c, c ∈ (geocodeHandler st data).2.2 ↔
        ∃ r ∈ (geocodeHandler st data).2.1, hasKey r c = true) ∧
    (∀ (st : St) (data : List Row),
      (timezoneHandler st data).1.cachedColumns =
        some (columnUnion ((timezoneHandler st data).2.1)) ∧
      (timezoneHandler st data).1.cachedData = some ((timezoneHandler st data).2.1) ∧
      ∀ c, c ∈ (timezoneHandler st data).2.2 ↔
        ∃ r ∈ (timezoneHandler st data).2.1, hasKey r c = true) ∧
    (∀ (st : St) (boe : List (String × String) × List (String × TaxInfo))
        (data : List Row) (out : St × List Row × List String),
      propertyTaxHandler st boe data = some out →
      out.1.cachedColumns = some (columnUnion out.2.1) ∧
      out.1.cachedData = some out.2.1 ∧
      ∀ c, c ∈ out.2.2 ↔ ∃ r ∈ out.2.1, hasKey r c = true) ∧
    (∀ (st : St) (boeCityToCounty : List (String × String))
        (data : List Row) (out : St × List Row × List String),
      propertyLinksHandler st boeCityToCounty data = some out →
      out.1.cachedColumns = some (columnUnion out.2.1) ∧
      out.1.cachedData = some out.2.1 ∧
      ∀ c, c ∈ out.2.2 ↔ ∃ r ∈ out.2.1, hasKey r c = true) := by
  refine ⟨?_, ?_, ?_, ?_, ?_⟩
  · intro st data out h
    unfold carrierHandler at h
    cases hm : mapOpt enrichCarrierRow data with
    | none => rw [hm] at h; exact Option.noConfusion h
    | some e =>
      rw [hm] at h
      simp only [Option.map_some'] at h
      injection h with h
      subst h
      exact ⟨rfl, rfl, rfl⟩
  · intro st data
    refine ⟨rfl, rfl, ?_⟩
    intro c
    show c ∈ columnUnion (data.map enrichGeocodeRow) ↔ _
    rw [mem_columnUnion]
    constructor
    · rintro ⟨r, hr, hc⟩
      exact ⟨r, hr, hasKey_iff_mem_rowKeys.mpr hc⟩
    · rintro ⟨r, hr, hc⟩
      exact ⟨r, hr, hasKey_iff_mem_rowKeys.mp hc⟩
  · intro st data
    refine ⟨rfl, rfl, ?_⟩
    intro c
    show c ∈ columnUnion (data.map enrichTimezoneRow) ↔ _
    rw [mem_columnUnion]
    constructor
    · rintro ⟨r, hr, hc⟩
      exact ⟨r, hr, hasKey_iff_mem_rowKeys.mpr hc⟩
    · rintro ⟨r, hr, hc⟩
      exact ⟨r, hr, hasKey_iff_mem_rowKeys.mp hc⟩
  · intro st boe data out h
    unfold propertyTaxHandler at h
    cases hm : mapOpt (enrichPropertyTaxRow boe) data with
    | none => rw [hm] at h; exact Option.noConfusion h
    | some e =>
      rw [hm] at h
      simp only [Option.map_some'] at h
      injection h with h
      subst h
      refine ⟨rfl, rfl, ?_⟩
      intro c
      show c ∈ columnUnion e ↔ _
      rw [mem_columnUnion]
      constructor
      · rintro ⟨r, hr, hc⟩
        exact ⟨r, hr, hasKey_iff_mem_rowKeys.mpr hc⟩
      · rintro ⟨r, hr, hc⟩
        exact ⟨r, hr, hasKey_iff_mem_rowKeys.mp hc⟩
  · intro st boeCityToCounty data out h
    unfold propertyLinksHandler at h
    cases hm : mapOpt (enrichPropertyLinksRow boeCityToCounty) data with
    | none => rw [hm] at h; exact Option.noConfusion h
    | some e =>
      rw [hm] at h
      simp only [Option.map_some'] at h
      injection h with h
      subst h
      refine ⟨rfl, rfl, ?_⟩
      intro c
      show c ∈ columnUnion e ↔ _
      rw [mem_columnUnion]
      constructor
      · rintro ⟨r, hr, hc⟩
        exact ⟨r, hr, hasKey_iff_mem_rowKeys.mpr hc⟩
      · rintro ⟨r, hr, hc⟩
        exact ⟨r, hr, hasKey_iff_mem_rowKeys.mp hc⟩

/-- BOE maps for the C4 property-pass witnesses. -/
def boePT : List (String × String) × List (String × TaxInfo) :=
  ([("SAN JOSE", "Santa Clara")], [("SANTA CLARA", ⟨1, 2, 3, "2022-2023"⟩)])

/-- Input row for the C4 property-tax witness: a CA caller whose city
resolves through both BOE maps. -/
def rowPT : Row := [("CallerState", JVal.str "CA"), ("CallerCity", JVal.str "San Jose")]

/-- The row the property-tax pass actually produces from `rowPT`. -/
def rowPTout : Row :=
  [("CallerState", JVal.str "CA"), ("CallerCity", JVal.str "San Jose"),
   ("CallerCounty", JVal.str "Santa Clara"), ("PropertyTaxRate", JVal.num 1),
   ("CountyAssessedValue", JVal.num 2), ("TaxDataYear", JVal.str "2022-2023")]

/-- The column union of `[rowPTout]`. -/
def colsPT : List String :=
  ["CallerState", "CallerCity", "CallerCounty", "PropertyTaxRate",
   "CountyAssessedValue", "TaxDataYear"]

/-- The output triple `propertyTaxHandler stC4 boePT [rowPT]` actually
produces. -/
def outPT : St × List Row × List String :=
  (⟨some [rowPTout], some colsPT, none⟩, [rowPTout], colsPT)

/-- Input row for the C4 property-links witness (no state, no
address). -/
def rowPL : Row := [("A", JVal.str "1")]

/-- The row the property-links pass actually produces from `rowPL`. -/
def rowPLout : Row :=
  [("A", JVal.str "1"), ("ZillowLink", JVal.null), ("CountyAssessorLink", JVal.null)]

/-- The column union of `[rowPLout]`. -/
def colsPL : List String := ["A", "ZillowLink", "CountyAssessorLink"]

/-- The output triple `propertyLinksHandler stC4 boePT.1 [rowPL]`
actually produces. -/
def outPL : St × List Row × List String :=
  (⟨some [rowPLout], some colsPL, none⟩, [rowPLout], colsPL)

theorem c4_enrichment_column_recompute_witness :
    (outC4.1.cachedColumns = stC4.cachedColumns ∧
     outC4.1.cachedData = some outC4.2.1 ∧
     outC4.2.2 = rowKeys (outC4.2.1.headD [])) ∧
    (outPT.1.cachedColumns = some (columnUnion outPT.2.1) ∧
     outPT.1.cachedData = some outPT.2.1) ∧
    (outPL.1.cachedColumns = some (columnUnion outPL.2.1) ∧
     outPL.1.cachedData = some outPL.2.1) :=
  ⟨c4_enrichment_column_recompute.1 stC4 dataC4 outC4 (by decide),
   ⟨(c4_enrichment_column_recompute.2.2.2.1 stC4 boePT [rowPT] outPT (by decide)).1,
    (c4_enrichment_column_recompute.2.2.2.1 stC4 boePT [rowPT] outPT (by decide)).2.1⟩,
   ⟨(c4_enrichment_column_recompute.2.2.2.2 stC4 boePT.1 [rowPL] outPL (by decide)).1,
    (c4_enrichment_column_recompute.2.2.2.2 stC4 boePT.1 [rowPL] outPL (by decide)).2.1⟩⟩

lemma applyFilters_eq_filter (fs : List (String × JVal)) (rows : List Row) :
    applyFilters fs rows = rows.filter (matchesAllFilters fs) := by
  induction fs generalizing rows with
  | nil =>
    show rows = rows.filter (matchesAllFilters [])
    rw [show matchesAllFilters [] = fun _ : Row => true from rfl, List.filter_true]
  | cons cv fs ih =>
    by_cases hcv : cv.1 = ""
    · rw [show applyFilters (cv :: fs) rows = applyFilters fs rows from by
        simp [applyFilters, hcv]]
      rw [ih]
      apply List.filter_congr
      intro r _
      simp [matchesAllFilters, hcv]
    · rw [show applyFilters (cv :: fs) rows =
          applyFilters fs (rows.filter (rowMatchesFilter cv.1 (strToLower (jsString cv.2)))) from by
        simp [applyFilters, hcv]]
      rw [ih, List.filter_filter]
      apply List.filter_congr
      intro r _
      simp [matchesAllFilters, hcv, Bool.and_comm]

lemma insertLe_perm {α : Type} (le : α → α → Bool) (a : α) (l : List α) :
    (insertLe le a l).Perm (a :: l) := by
  induction l with
  | nil => exact List.Perm.refl _
  | cons b bs ih =>
    unfold insertLe
    by_cases h : le a b
    · simp [h]
    · rw [if_neg h]
      exact (ih.cons b).trans (List.Perm.swap a b bs)

lemma sortLe_perm {α : Type} (le : α → α → Bool) (l : List α) :
    (sortLe le l).Perm l := by
  induction l with
  | nil => exact List.Perm.refl _
  | cons a l ih =>
    show (insertLe le a (sortLe le l)).Perm (a :: l)
    exact (insertLe_perm le a _).trans (ih.cons a)

lemma filterStep_eq_matchedRows (spec : QuerySpec) (data : List Row) :
    filterStep spec data = matchedRows spec data := by
  cases h : spec.filters <;> simp [filterStep, matchedRows, h, applyFilters_eq_filter]

lemma sortStep_perm (spec : QuerySpec) (rows : List Row) :
    (sortStep spec rows).Perm rows := by
  cases h : spec.sort with
  | none => simp [sortStep, h]
  | some s =>
    by_cases hc : s.column = ""
    · simp [sortStep, h, hc]
    · simp only [sortStep, h, if_neg hc]
      exact sortLe_perm _ _

/-- C7.  For every query specification and dataset, the handler returns
at most 100 rows (exactly `min 100 resultCount` of them, a prefix of the
filtered-and-sorted rows), every returned row satisfies all filters, and
`resultCount` is the full pre-cap number of rows matching the
filters. -/
theorem c7_result_cap_and_true_count (spec : QuerySpec) (data : List Row) :
    (applyQuery spec data).results.length ≤ 100 ∧
    (applyQuery spec data).resultCount = (matchedRows spec data).length ∧
    (applyQuery spec data).results.length = min 100 (matchedRows spec data).length ∧
    (∀ fs, spec.filters = some fs →
      ∀ r ∈ (applyQuery spec data).results, matchesAllFilters fs r = true) := by
  have hperm : (sortStep spec (filterStep spec data)).Perm (matchedRows spec data) := by
    rw [← filterStep_eq_matchedRows]
    exact sortStep_perm spec _
  have hres : (applyQuery spec data).results =
      (sortStep spec (filterStep spec data)).take 100 := rfl
  have hcount : (applyQuery spec data).resultCount =
      (sortStep spec (filterStep spec data)).length := rfl
  refine ⟨?_, ?_, ?_, ?_⟩
  · rw [hres]
    exact List.length_take_le 100 _
  · rw [hcount, hperm.length_eq]
  · rw [hres, List.length_take, hperm.length_eq]
  · intro fs hfs r hr
    rw [hres] at hr
    have hr2 : r ∈ sortStep spec (filterStep spec data) := List.mem_of_mem_take hr
    have hr3 : r ∈ matchedRows spec data := hperm.mem_iff.mp hr2
    rw [matchedRows, hfs] at hr3
    exact List.of_mem_filter hr3

theorem c7_result_cap_witness :
    (applyQuery ⟨some [("S", JVal.str "ca")], none, none⟩
        ([[("S", JVal.str "CA")], [("S", JVal.str "NY")]] : List Row)).results.length ≤ 100 ∧
    (applyQuery ⟨some [("S", JVal.str "ca")], none, none⟩
        ([[("S", JVal.str "CA")], [("S", JVal.str "NY")]] : List Row)).resultCount =
      (matchedRows ⟨some [("S", JVal.str "ca")], none, none⟩
        ([[("S", JVal.str "CA")], [("S", JVal.str "NY")]] : List Row)).length ∧
    matchesAllFilters [("S", JVal.str "ca")] ([("S", JVal.str "CA")] : Row) = true :=
  ⟨(c7_result_cap_and_true_count _ _).1,
   (c7_result_cap_and_true_count _ _).2.1,
   (c7_result_cap_and_true_count ⟨some [("S", JVal.str "ca")], none, none⟩
      ([[("S", JVal.str "CA")], [("S", JVal.str "NY")]] : List Row)).2.2.2
     [("S", JVal.str "ca")] rfl ([("S", JVal.str "CA")] : Row) (by decide)⟩

lemma map_fst_insertGroup (gs : List (String × List Row)) (k : String) (r : Row) :
    (insertGroup gs k r).map Prod.fst = addCol (gs.map Prod.fst) k := by
  induction gs with
  | nil => simp [insertGroup, addCol]
  | cons e gs ih =>
    by_cases he : e.1 = k
    · simp [insertGroup, he, addCol]
    · simp only [insertGroup, if_neg he, List.map_cons, ih, addCol]
      by_cases hm : k ∈ gs.map Prod.fst
      · simp [hm, Ne.symm he, List.mem_cons]
      · simp [hm, Ne.symm he, List.mem_cons]

lemma lookupStr_insertGroup_self (gs : List (String × List Row)) (k : String) (r : Row) :
    lookupStr k (insertGroup gs k r) = some ((lookupStr k gs).getD [] ++ [r]) := by
  induction gs with
  | nil => simp [insertGroup, lookupStr]
  | cons e gs ih =>
    by_cases he : e.1 = k
    · simp [insertGroup, he, lookupStr]
    · simp [insertGroup, he, lookupStr, ih]

lemma lookupStr_insertGroup_ne (gs : List (String × List Row)) (k k' : String) (r : Row)
    (h : k' ≠ k) : lookupStr k' (insertGroup gs k r) = lookupStr k' gs := by
  induction gs with
  | nil => simp [insertGroup, lookupStr, Ne.symm h]
  | cons e gs ih =>
    by_cases he : e.1 = k
    · subst he
      simp [insertGroup, lookupStr, Ne.symm h, h]
    · by_cases he' : e.1 = k'
      · simp [insertGroup, lookupStr, he, he', h]
      · simp [insertGroup, lookupStr, he, he', ih]

lemma lookupStr_of_mem_nodup {α : Type} {gs : List (String × α)} {e : String × α}
    (hnd : (gs.map Prod.fst).Nodup) (he : e ∈ gs) : lookupStr e.1 gs = some e.2 := by
  induction gs with
  | nil => simp at he
  | cons p ps ih =>
    simp only [List.map_cons, List.nodup_cons] at hnd
    rcases List.mem_cons.mp he with rfl | hmem
    · simp [lookupStr]
    · have hne : p.1 ≠ e.1 := by
        intro hctr
        exact hnd.1 (hctr ▸ (List.mem_map.mpr ⟨e, hmem, rfl⟩))
      simp [lookupStr, hne, ih hnd.2 hmem]

lemma buildGroups_fold_spec (g : String) :
    ∀ (rows : List Row) (gs : List (String × List Row)) (pref : List Row),
      (gs.map Prod.fst).Nodup →
      (∀ k, lookupStr k gs =
        (if pref.filter (fun r => decide (groupKeyOf g r = k)) = [] then none
         else some (pref.filter (fun r => decide (groupKeyOf g r = k))))) →
      (((rows.foldl (fun gs r => insertGroup gs (groupKeyOf g r) r) gs).map Prod.fst).Nodup ∧
       ∀ k, lookupStr k (rows.foldl (fun gs r => insertGroup gs (groupKeyOf g r) r) gs) =
        (if (pref ++ rows).filter (fun r => decide (groupKeyOf g r = k)) = [] then none
         else some ((pref ++ rows).filter (fun r => decide (groupKeyOf g r = k))))) := by
  intro rows
  induction rows with
  | nil =>
    intro gs pref hnd hlk
    refine ⟨hnd, fun k => ?_⟩
    simpa only [List.append_nil] using hlk k
  | cons r rows ih =>
    intro gs pref hnd hlk
    have hnd' : ((insertGroup gs (groupKeyOf g r) r).map Prod.fst).Nodup := by
      rw [map_fst_insertGroup]
      exact nodup_addCol hnd _
    have hlk' : ∀ k, lookupStr k (insertGroup gs (groupKeyOf g r) r) =
        (if (pref ++ [r]).filter (fun r => decide (groupKeyOf g r = k)) = [] then none
         else some ((pref ++ [r]).filter (fun r => decide (groupKeyOf g r = k)))) := by
      intro k
      by_cases hk : k = groupKeyOf g r
      · subst hk
        rw [lookupStr_insertGroup_self, hlk _]
        simp only [List.filter_append]
        by_cases hemp : pref.filter (fun x => decide (groupKeyOf g x = groupKeyOf g r)) = []
        · simp [hemp]
        · simp [hemp]
      · rw [lookupStr_insertGroup_ne _ _ _ _ hk, hlk k]
        have hone : ([r].filter (fun x => decide (groupKeyOf g x = k))) = [] := by
          simp [Ne.symm hk]
        simp only [List.filter_append, hone, List.append_nil]
    have hstep := ih (insertGroup gs (groupKeyOf g r) r) (pref ++ [r]) hnd' hlk'
    constructor
    · exact hstep.1
    · intro k
      have := hstep.2 k
      simpa only [List.append_assoc, List.singleton_append] using this

lemma buildGroups_nodup (g : String) (rows : List Row) :
    ((buildGroups g rows).map Prod.fst).Nodup :=
  (buildGroups_fold_spec g rows [] [] (by simp) (by intro k; simp [lookupStr])).1

lemma buildGroups_lookup (g : String) (rows : List Row) (k : String) :
    lookupStr k (buildGroups g rows) =
      (if rows.filter (fun r => decide (groupKeyOf g r = k)) = [] then none
       else some (rows.filter (fun r => decide (groupKeyOf g r = k)))) := by
  have h := (buildGroups_fold_spec g rows [] [] (by simp) (by intro k; simp [lookupStr])).2 k
  simpa only [List.nil_append] using h

lemma mem_buildGroups_spec (g : String) (rows : List Row) (kg : String × List Row)
    (h : kg ∈ buildGroups g rows) :
    kg.2 = rows.filter (fun r => decide (groupKeyOf g r = kg.1)) ∧ kg.2 ≠ [] := by
  have hlk := lookupStr_of_mem_nodup (buildGroups_nodup g rows) h
  rw [buildGroups_lookup] at hlk
  by_cases hemp : rows.filter (fun r => decide (groupKeyOf g r = kg.1)) = []
  · rw [if_pos hemp] at hlk
    exact absurd hlk (by simp)
  · rw [if_neg hemp] at hlk
    have heq := Option.some.inj hlk
    exact ⟨heq.symm, heq ▸ hemp⟩

lemma mem_insertLe {α : Type} (le : α → α → Bool) (a x : α) (l : List α) :
    x ∈ insertLe le a l ↔ x = a ∨ x ∈ l := by
  rw [(insertLe_perm le a l).mem_iff]
  simp

lemma insertLe_pairwise {α : Type} (le : α → α → Bool)
    (htot : ∀ a b, le a b = true ∨ le b a = true)
    (htrans : ∀ a b c, le a b = true → le b c = true → le a c = true)
    (a : α) (l : List α) (h : List.Pairwise (fun x y => le x y = true) l) :
    List.Pairwise (fun x y => le x y = true) (insertLe le a l) := by
  induction l with
  | nil => simp [insertLe]
  | cons b bs ih =>
    have hh := List.pairwise_cons.mp h
    unfold insertLe
    by_cases hab : le a b = true
    · rw [if_pos hab]
      refine List.Pairwise.cons ?_ h
      intro x hx
      rcases List.mem_cons.mp hx with rfl | hx'
      · exact hab
      · exact htrans a b x hab (hh.1 x hx')
    · rw [if_neg hab]
      have hba : le b a = true := (htot a b).resolve_left hab
      refine List.Pairwise.cons ?_ (ih hh.2)
      intro x hx
      rcases (mem_insertLe le a x bs).mp hx with rfl | hx'
      · exact hba
      · exact hh.1 x hx'

lemma sortLe_pairwise {α : Type} (le : α → α → Bool)
    (htot : ∀ a b, le a b = true ∨ le b a = true)
    (htrans : ∀ a b c, le a b = true → le b c = true → le a c = true)
    (l : List α) : List.Pairwise (fun x y => le x y = true) (sortLe le l) := by
  induction l with
  | nil => simp [sortLe]
  | cons a l ih => exact insertLe_pairwise le htot htrans a (sortLe le l) ih

lemma foldl_add_eq_sum (l : List ℚ) : ∀ a : ℚ, l.foldl (· + ·) a = a + l.sum := by
  induction l with
  | nil => simp
  | cons b bs ih =>
    intro a
    show bs.foldl (· + ·) (a + b) = _
    rw [ih (a + b)]
    simp [List.sum_cons]
    ring

lemma foldl_max_spec (l : List ℚ) : ∀ a : ℚ,
    (l.foldl max a = a ∨ l.foldl max a ∈ l) ∧ a ≤ l.foldl max a ∧
      ∀ x ∈ l, x ≤ l.foldl max a := by
  induction l with
  | nil => simp
  | cons b bs ih =>
    intro a
    obtain ⟨hmem, hle, hall⟩ := ih (max a b)
    have hfold : (b :: bs).foldl max a = bs.foldl max (max a b) := rfl
    refine ⟨?_, ?_, ?_⟩
    · rw [hfold]
      rcases hmem with h | h
      · rcases le_total a b with hab | hab
        · right
          rw [h, max_eq_right hab]
          exact List.mem_cons_self _ _
        · left
          rw [h, max_eq_left hab]
      · right
        exact List.mem_cons_of_mem _ h
    · rw [hfold]
      exact le_trans (le_max_left a b) hle
    · intro x hx
      rw [hfold]
      rcases List.mem_cons.mp hx with rfl | hx'
      · exact le_trans (le_max_right a x) hle
      · exact hall x hx'

lemma foldl_min_spec (l : List ℚ) : ∀ a : ℚ,
    (l.foldl min a = a ∨ l.foldl min a ∈ l) ∧ l.foldl min a ≤ a ∧
      ∀ x ∈ l, l.foldl min a ≤ x := by
  induction l with
  | nil => simp
  | cons b bs ih =>
    intro a
    obtain ⟨hmem, hle, hall⟩ := ih (min a b)
    have hfold : (b :: bs).foldl min a = bs.foldl min (min a b) := rfl
    refine ⟨?_, ?_, ?_⟩
    · rw [hfold]
      rcases hmem with h | h
      · rcases le_total a b with hab | hab
        · left
          rw [h, min_eq_left hab]
        · right
          rw [h, min_eq_right hab]
          exact List.mem_cons_self _ _
      · right
        exact List.mem_cons_of_mem _ h
    · rw [hfold]
      exact le_trans hle (min_le_left a b)
    · intro x hx
      rw [hfold]
      rcases List.mem_cons.mp hx with rfl | hx'
      · exact le_trans hle (min_le_right a x)
      · exact hall x hx'

lemma listMax_spec (l : List ℚ) (h : l ≠ []) :
    listMax l ∈ l ∧ ∀ x ∈ l, x ≤ listMax l := by
  cases l with
  | nil => exact absurd rfl h
  | cons a as =>
    obtain ⟨hmem, hle, hall⟩ := foldl_max_spec as a
    constructor
    · show as.foldl max a ∈ a :: as
      rcases hmem with h' | h'
      · rw [h']
        exact List.mem_cons_self _ _
      · exact List.mem_cons_of_mem _ h'
    · intro x hx
      rcases List.mem_cons.mp hx with rfl | hx'
      · exact hle
      · exact hall x hx'

lemma listMin_spec (l : List ℚ) (h : l ≠ []) :
    listMin l ∈ l ∧ ∀ x ∈ l, listMin l ≤ x := by
  cases l with
  | nil => exact absurd rfl h
  | cons a as =>
    obtain ⟨hmem, hle, hall⟩ := foldl_min_spec as a
    constructor
    · show as.foldl min a ∈ a :: as
      rcases hmem with h' | h'
      · rw [h']
        exact List.mem_cons_self _ _
      · exact List.mem_cons_of_mem _ h'
    · intro x hx
      rcases List.mem_cons.mp hx with rfl | hx'
      · exact hle
      · exact hall x hx'

/-- C10.  In every groupBy aggregation: each output entry's statistic is
`Math.round(value * 100) / 100` of the statistic of exactly the matching
rows whose group key is the entry's key (so rounding happens before the
groups are sorted and returned); the output is sorted by descending
statistic; `sum`/`avg`/`max`/`min` are computed over
`parseFloat(row[column]) || 0`, i.e. a row value that fails to parse as
a number contributes 0. -/
theorem c10_groupby_zero_default_and_rounding (ag : AggSpec) (rows : List Row)
    (entries : List (String × ℚ)) (g : String)
    (hg : ag.groupBy = some g)
    (h : applyAggregation ag rows = some entries) :
    (∀ e ∈ entries,
      rows.filter (fun r => decide (groupKeyOf g r = e.1)) ≠ [] ∧
      e.2 = round2 (aggValue ag.type ag.column
        (rows.filter (fun r => decide (groupKeyOf g r = e.1))))) ∧
    List.Pairwise (fun a b : String × ℚ => b.2 ≤ a.2) entries ∧
    (∀ (column : Option String) (l : List Row),
      aggValue "sum" column l = (l.map (fun r => parseOr0 (colGet column r))).sum) ∧
    (∀ (column : Option String) (l : List Row), l ≠ [] →
      aggValue "avg" column l
        = (l.map (fun r => parseOr0 (colGet column r))).sum / (l.length : ℚ)) ∧
    (∀ (column : Option String) (l : List Row), l ≠ [] →
      aggValue "max" column l ∈ l.map (fun r => parseOr0 (colGet column r)) ∧
      ∀ x ∈ l.map (fun r => parseOr0 (colGet column r)), x ≤ aggValue "max" column l) ∧
    (∀ (column : Option String) (l : List Row), l ≠ [] →
      aggValue "min" column l ∈ l.map (fun r => parseOr0 (colGet column r)) ∧
      ∀ x ∈ l.map (fun r => parseOr0 (colGet column r)), aggValue "min" column l ≤ x) ∧
    (∀ v : JVal, jsParseFloatVal v = none → parseOr0 (some v) = 0) := by
  have hentries : entries = sortLe (fun a b => decide (b.2 - a.2 ≤ 0))
      ((buildGroups g rows).map (fun kg => (kg.1, round2 (aggValue ag.type ag.column kg.2)))) := by
    simp only [applyAggregation, hg] at h
    by_cases hge : g = ""
    · rw [if_pos hge] at h
      exact absurd h (by simp)
    · rw [if_neg hge] at h
      exact (Option.some.inj h).symm
  refine ⟨?_, ?_, ?_, ?_, ?_, ?_, ?_⟩
  · intro e he
    rw [hentries] at he
    have he2 := (sortLe_perm _ _).mem_iff.mp he
    obtain ⟨kg, hkg, rfl⟩ := List.mem_map.mp he2
    obtain ⟨hfil, hne⟩ := mem_buildGroups_spec g rows kg hkg
    exact ⟨by rw [← hfil]; exact hne, by rw [← hfil]⟩
  · rw [hentries]
    have hp := sortLe_pairwise (fun a b : String × ℚ => decide (b.2 - a.2 ≤ 0))
      (by
        intro a b
        simp only [decide_eq_true_eq, sub_nonpos]
        exact le_total b.2 a.2)
      (by
        intro a b c
        simp only [decide_eq_true_eq, sub_nonpos]
        exact fun h1 h2 => le_trans h2 h1)
      ((buildGroups g rows).map (fun kg => (kg.1, round2 (aggValue ag.type ag.column kg.2))))
    refine hp.imp ?_
    intro a b hab
    simpa [sub_nonpos] using hab
  · intro column l
    simp only [aggValue]
    rw [if_neg (by decide : ¬("sum" = "count")), if_pos trivial, foldl_add_eq_sum, zero_add]
  · intro column l _
    simp only [aggValue]
    rw [if_neg (by decide : ¬("avg" = "count")), if_neg (by decide : ¬("avg" = "sum")),
      if_pos trivial, foldl_add_eq_sum, zero_add]
  · intro column l hl
    simp only [aggValue]
    rw [if_neg (by decide : ¬("max" = "count")), if_neg (by decide : ¬("max" = "sum")),
      if_neg (by decide : ¬("max" = "avg")), if_pos trivial]
    exact listMax_spec _ (by simpa using hl)
  · intro column l hl
    simp only [aggValue]
    rw [if_neg (by decide : ¬("min" = "count")), if_neg (by decide : ¬("min" = "sum")),
      if_neg (by decide : ¬("min" = "avg")), if_neg (by decide : ¬("min" = "max")),
      if_pos trivial]
    exact listMin_spec _ (by simpa using hl)
  · intro v hv
    simp [parseOr0, hv]

/-- Row set for the C10 witness: two CA rows, one whose duration does
not parse as a number. -/
def rowsC10 : List Row :=
  [[("S", JVal.str "CA"), ("D", JVal.str "abc")],
   [("S", JVal.str "CA"), ("D", JVal.num 2)]]

/-- Aggregation specification for the C10 witness. -/
def agC10 : AggSpec := ⟨"sum", some "D", some "S"⟩

/-- Output entries `applyAggregation agC10 rowsC10` actually produces:
the non-numeric value counts as 0, so the CA group's sum is
`0 + 2 = 2`. -/
def entriesC10 : List (String × ℚ) := [("CA", 2)]

lemma applyAggregation_agC10 : applyAggregation agC10 rowsC10 = some entriesC10 := by
  have habc : parseFloatQ "abc" = none := by decide
  simp [applyAggregation, agC10, rowsC10, entriesC10, buildGroups, insertGroup, groupKeyOf,
    getVal, lookupStr, truthy, jsString, sortLe, insertLe, aggValue, colGet, parseOr0,
    jsParseFloatVal, habc, round2, jsRound]
  norm_num

theorem c10_groupby_witness :
    rowsC10.filter (fun r => decide (groupKeyOf "S" r = "CA")) ≠ [] ∧
    (2 : ℚ) = round2 (aggValue "sum" (some "D")
      (rowsC10.filter (fun r => decide (groupKeyOf "S" r = "CA")))) :=
  (c10_groupby_zero_default_and_rounding agC10 rowsC10 entriesC10 "S" rfl
      applyAggregation_agC10).1
    ("CA", (2 : ℚ)) (by simp [entriesC10])

lemma buildTaxMap_lookup_gen (records : List TaxRecord) :
    ∀ (m : List (String × TaxInfo)) (K : String),
      lookupStr K (records.foldl
        (fun m rec =>
          if (lookupStr (strToUpper rec.County) m).isSome then m
          else setAssoc m (strToUpper rec.County) (mkTaxInfo rec)) m) =
      (if (lookupStr K m).isSome then lookupStr K m
       else (records.find? (fun rec => decide (strToUpper rec.County = K))).map mkTaxInfo) := by
  induction records with
  | nil =>
    intro m K
    cases h : lookupStr K m <;> simp [h]
  | cons rec recs ih =>
    intro m K
    show lookupStr K (recs.foldl _
      (if (lookupStr (strToUpper rec.County) m).isSome then m
       else setAssoc m (strToUpper rec.County) (mkTaxInfo rec))) = _
    by_cases hset : (lookupStr (strToUpper rec.County) m).isSome
    · rw [if_pos hset, ih m K]
      by_cases hk : (lookupStr K m).isSome
      · simp [hk]
      · have hne : ¬(strToUpper rec.County = K) := by
          intro hctr
          rw [hctr] at hset
          exact hk hset
        simp [hk, List.find?, hne]
    · rw [if_neg hset, ih _ K]
      by_cases hku : K = strToUpper rec.County
      · rw [hku, lookupStr_setAssoc_self]
        have hnone : lookupStr (strToUpper rec.County) m = none := by
          cases h : lookupStr (strToUpper rec.County) m
          · rfl
          · rw [h] at hset
            simp at hset
        simp [hnone, List.find?]
      · rw [lookupStr_setAssoc_ne _ _ _ _ hku]
        have hne : ¬(strToUpper rec.County = K) := fun hctr => hku hctr.symm
        by_cases hk : (lookupStr K m).isSome
        · simp [hk]
        · simp [hk, List.find?, hne]

lemma buildTaxMap_first_wins (records : List TaxRecord) (K : String) :
    lookupStr K (buildTaxMap records) =
      (records.find? (fun rec => decide (strToUpper rec.County = K))).map mkTaxInfo := by
  have h := buildTaxMap_lookup_gen records [] K
  simpa [lookupStr] using h

lemma buildCityMaps_lookup_gen (records : List CityRecord)
    (hrec : ∀ rec ∈ records, rec.County ≠ "") :
    ∀ (m : List (String × String) × List (String × ℚ)) (K : String),
      (∀ k v, lookupStr k m.1 = some v → v ≠ "") →
      lookupStr K (records.foldl
        (fun m rec =>
          if truthyStr (lookupStr (strToUpper rec.City) m.1) then m
          else (setAssoc m.1 (strToUpper rec.City) rec.County,
                setAssoc m.2 (strToUpper rec.City) rec.LocallyAssessedValue)) m).1 =
      (if (lookupStr K m.1).isSome then lookupStr K m.1
       else (records.find? (fun rec => decide (strToUpper rec.City = K))).map
         (fun rec => rec.County)) := by
  induction records with
  | nil =>
    intro m K _
    cases h : lookupStr K m.1 <;> simp [h]
  | cons rec recs ih =>
    have hrecs : ∀ r ∈ recs, r.County ≠ "" := fun r hr => hrec r (List.mem_cons_of_mem _ hr)
    have hhead : rec.County ≠ "" := hrec rec (List.mem_cons_self _ _)
    intro m K hinv
    show lookupStr K ((recs.foldl _
      (if truthyStr (lookupStr (strToUpper rec.City) m.1) then m
       else (setAssoc m.1 (strToUpper rec.City) rec.County,
             setAssoc m.2 (strToUpper rec.City) rec.LocallyAssessedValue))).1) = _
    by_cases hset : truthyStr (lookupStr (strToUpper rec.City) m.1) = true
    · rw [if_pos hset, ih hrecs m K hinv]
      have hsome : (lookupStr (strToUpper rec.City) m.1).isSome := by
        cases h : lookupStr (strToUpper rec.City) m.1
        · rw [h] at hset
          simp [truthyStr] at hset
        · simp
      by_cases hk : (lookupStr K m.1).isSome
      · simp [hk]
      · have hne : ¬(strToUpper rec.City = K) := by
          intro hctr
          rw [hctr] at hsome
          exact hk hsome
        simp [hk, List.find?, hne]
    · rw [if_neg hset]
      have hnone : lookupStr (strToUpper rec.City) m.1 = none := by
        cases h : lookupStr (strToUpper rec.City) m.1 with
        | none => rfl
        | some v =>
          rw [h] at hset
          simp [truthyStr] at hset
          exact absurd (hinv _ _ h) (by simp [hset])
      have hinv' : ∀ k v,
          lookupStr k (setAssoc m.1 (strToUpper rec.City) rec.County) = some v → v ≠ "" := by
        intro k v hkv
        by_cases hk : k = strToUpper rec.City
        · rw [hk, lookupStr_setAssoc_self] at hkv
          rw [← Option.some.inj hkv]
          exact hhead
        · rw [lookupStr_setAssoc_ne _ _ _ _ hk] at hkv
          exact hinv _ _ hkv
      rw [ih hrecs (setAssoc m.1 (strToUpper rec.City) rec.County,
        setAssoc m.2 (strToUpper rec.City) rec.LocallyAssessedValue) K hinv']
      by_cases hku : K = strToUpper rec.City
      · rw [hku]
        rw [show (setAssoc m.1 (strToUpper rec.City) rec.County,
            setAssoc m.2 (strToUpper rec.City) rec.LocallyAssessedValue).1 =
            setAssoc m.1 (strToUpper rec.City) rec.County from rfl]
        rw [lookupStr_setAssoc_self]
        have hKnone : lookupStr (strToUpper rec.City) m.1 = none := hnone
        simp [hKnone, List.find?]
      · rw [show (setAssoc m.1 (strToUpper rec.City) rec.County,
            setAssoc m.2 (strToUpper rec.City) rec.LocallyAssessedValue).1 =
            setAssoc m.1 (strToUpper rec.City) rec.County from rfl]
        rw [lookupStr_setAssoc_ne _ _ _ _ hku]
        have hne : ¬(strToUpper rec.City = K) := fun hctr => hku hctr.symm
        by_cases hk : (lookupStr K m.1).isSome
        · simp [hk]
        · simp [hk, List.find?, hne]

lemma buildCityMaps_first_wins (records : List CityRecord)
    (hrec : ∀ rec ∈ records, rec.County ≠ "") (K : String) :
    lookupStr K (buildCityMaps records).1 =
      (records.find? (fun rec => decide (strToUpper rec.City = K))).map
        (fun rec => rec.County) := by
  have h := buildCityMaps_lookup_gen records hrec ([], []) K
    (by intro k v hv; simp [lookupStr] at hv)
  simpa [lookupStr] using h

deriving instance DecidableEq for Except

/-- City-feed fixture for the C8 counterexample: the first record for
city key `"A"` has an empty county, the second a real one. -/
def cityRecsCx : List CityRecord := [⟨"a", "", 5⟩, ⟨"A", "X", 7⟩]

/-- C8, counterexample.  On a stale cache, with a city feed whose first
record for key `"A"` carries the empty county string, the rebuilt
city-to-county map stores the second record's county `"X"` — the falsy
stored value is overwritten — so the map does not keep the first record
per key as claimed. -/
theorem c8_first_record_counterexample :
    fetchBOEData 0 BOECache.init (.ok cityRecsCx) (.ok []) =
      .ok (⟨some [("A", "X")], some [("A", 7)], some [], some 0⟩, true) ∧
    (cityRecsCx.find? (fun rec => decide (strToUpper rec.City = "A"))).map
      (fun rec => rec.County) = some "" := by
  decide

/-- C8, amended.  `fetchBOEData` serves the cache with no fetch whenever
it was last fetched (a nonzero timestamp) less than 24 hours ago; on a
stale cache it propagates a failure of either fetch as the error itself
(never empty data, and the old cache value is only replaced on success);
on success it installs uppercase-keyed maps that keep the first record
per key — unconditionally for the county tax map, and for the
city-to-county map under the proviso that the fetched county names are
non-empty (an empty stored county is falsy and gets overwritten). -/
theorem c8_boe_cache_and_error_propagation :
    (∀ (now t : ℤ) (cache : BOECache) (cf : Except String (List CityRecord))
        (tf : Except String (List TaxRecord)),
      cache.lastFetched = some t → t ≠ 0 → now - t < 24 * 60 * 60 * 1000 →
      fetchBOEData now cache cf tf = .ok (cache, false)) ∧
    (∀ (now : ℤ) (cache : BOECache) (e : String) (tf : Except String (List TaxRecord)),
      boeFresh now cache = false →
      fetchBOEData now cache (.error e) tf = .error e) ∧
    (∀ (now : ℤ) (cache : BOECache) (cd : List CityRecord) (e : String),
      boeFresh now cache = false →
      fetchBOEData now cache (.ok cd) (.error e) = .error e) ∧
    (∀ (now : ℤ) (cache : BOECache) (cd : List CityRecord) (td : List TaxRecord),
      boeFresh now cache = false →
      fetchBOEData now cache (.ok cd) (.ok td) =
        .ok (⟨some (buildCityMaps cd).1, some (buildCityMaps cd).2,
              some (buildTaxMap td), some now⟩, true) ∧
      (∀ K, lookupStr K (buildTaxMap td) =
        (td.find? (fun rec => decide (strToUpper rec.County = K))).map mkTaxInfo) ∧
      ((∀ rec ∈ cd, rec.County ≠ "") →
        ∀ K, lookupStr K (buildCityMaps cd).1 =
          (cd.find? (fun rec => decide (strToUpper rec.City = K))).map
            (fun rec => rec.County))) := by
  refine ⟨?_, ?_, ?_, ?_⟩
  · intro now t cache cf tf hlf ht hlt
    have hfresh : boeFresh now cache = true := by
      simp [boeFresh, hlf, ht]
      omega
    simp [fetchBOEData, hfresh]
  · intro now cache e tf hfresh
    simp [fetchBOEData, hfresh]
  · intro now cache cd e hfresh
    simp [fetchBOEData, hfresh]
  · intro now cache cd td hfresh
    refine ⟨by simp [fetchBOEData, hfresh], buildTaxMap_first_wins td, ?_⟩
    intro hrec K
    exact buildCityMaps_first_wins cd hrec K

theorem c8_boe_witness :
    fetchBOEData 1 (⟨none, none, none, some 1⟩ : BOECache) (.ok []) (.ok []) =
      .ok ((⟨none, none, none, some 1⟩ : BOECache), false) ∧
    fetchBOEData 0 BOECache.init
      (Except.error "boom" : Except String (List CityRecord)) (.ok []) =
      Except.error "boom" ∧
    fetchBOEData 0 BOECache.init (.ok ([] : List CityRecord))
      (Except.error "boom" : Except String (List TaxRecord)) =
      Except.error "boom" ∧
    lookupStr "A" (buildCityMaps [⟨"a", "X", 5⟩]).1 = some "X" :=
  ⟨c8_boe_cache_and_error_propagation.1 1 1 _ (.ok []) (.ok []) rfl (by decide) (by decide),
   c8_boe_cache_and_error_propagation.2.1 0 BOECache.init "boom" (.ok []) (by decide),
   c8_boe_cache_and_error_propagation.2.2.1 0 BOECache.init [] "boom" (by decide),
   by
     rw [(c8_boe_cache_and_error_propagation.2.2.2 0 BOECache.init [⟨"a", "X", 5⟩] []
       (by decide)).2.2 (by decide) "A"]
     decide⟩
